import Mathlib

/-!
# Block reward and block funding of the node

A shallow embedding of `get_block_reward` and `get_pos_block_reward_rate`
(`cryptonote_basic_impl.cpp`) and of the member functions of `BlockFunding`
(`blockfunding.cpp`), with the properties proved about them.

Machine integers are natural numbers with an explicit reduction modulo `2^64`
wherever the C++ arithmetic can wrap.  A C++ call that runs into undefined
behaviour (a shift by an out-of-range amount, a division by zero) or into a
failing `assert` produces no result: the embedding returns `none`.
-/

namespace cryptonote

/-- Number of values of a `uint64_t` (and of `size_t` on the 64-bit targets). -/
def U64 : Nat := 2 ^ 64

/-- `std::numeric_limits<uint32_t>::max()`. -/
def UINT32_MAX : Nat := 2 ^ 32 - 1

/-- Unsigned 64-bit subtraction `a - b`. -/
def sub64 (a b : Nat) : Nat := (a + U64 - b % U64) % U64

/-- Unsigned 64-bit multiplication `a * b`. -/
def mul64 (a b : Nat) : Nat := (a * b) % U64

/-- The compile-time constants of `cryptonote_config.h` that `get_block_reward` and
`get_min_block_weight` read.  The header is not part of the sources at hand, so the constants
are parameters of the embedding. -/
structure Config where
  MONEY_SUPPLY : Nat
  EMISSION_SPEED_FACTOR_PER_MINUTE : Nat
  FINAL_SUBSIDY_PER_MINUTE : Nat
  DIFFICULTY_TARGET_V1 : Nat
  DIFFICULTY_TARGET_V2 : Nat
  CRYPTONOTE_BLOCK_GRANTED_FULL_REWARD_ZONE_V1 : Nat
  CRYPTONOTE_BLOCK_GRANTED_FULL_REWARD_ZONE_V2 : Nat
  CRYPTONOTE_BLOCK_GRANTED_FULL_REWARD_ZONE_V5 : Nat
  HF_VERSION_60 : Nat
  MONERO_BLOCK_REWARD : Nat
  deriving DecidableEq, Repr

/-- `size_t get_min_block_weight(uint8_t version)`. -/
def get_min_block_weight (cfg : Config) (version : Nat) : Nat :=
  if version < 2 then cfg.CRYPTONOTE_BLOCK_GRANTED_FULL_REWARD_ZONE_V1
  else if version < 5 then cfg.CRYPTONOTE_BLOCK_GRANTED_FULL_REWARD_ZONE_V2
  else cfg.CRYPTONOTE_BLOCK_GRANTED_FULL_REWARD_ZONE_V5

/-- `const int target = version < 2 ? DIFFICULTY_TARGET_V1 : DIFFICULTY_TARGET_V2;` -/
def target (cfg : Config) (version : Nat) : Nat :=
  if version < 2 then cfg.DIFFICULTY_TARGET_V1 else cfg.DIFFICULTY_TARGET_V2

/-- `const int target_minutes = target / 60;` -/
def target_minutes (cfg : Config) (version : Nat) : Nat :=
  target cfg version / 60

/-- `const int emission_speed_factor = EMISSION_SPEED_FACTOR_PER_MINUTE - (target_minutes-1);`
computed in `int`, hence possibly negative. -/
def emission_speed_factor (cfg : Config) (version : Nat) : Int :=
  (cfg.EMISSION_SPEED_FACTOR_PER_MINUTE : Int) - ((target_minutes cfg version : Int) - 1)

/-- The value `FINAL_SUBSIDY_PER_MINUTE*target_minutes`, a 64-bit unsigned product. -/
def final_subsidy (cfg : Config) (version : Nat) : Nat :=
  mul64 cfg.FINAL_SUBSIDY_PER_MINUTE (target_minutes cfg version)

/-- Lines 116-120 of `get_block_reward`: the subsidy before any weight penalty,
`(MONEY_SUPPLY - already_generated_coins) >> emission_speed_factor` raised to the final subsidy.
The shift amount is passed as a natural number. -/
def base_reward (cfg : Config) (already_generated_coins version shift : Nat) : Nat :=
  let base_reward := sub64 cfg.MONEY_SUPPLY already_generated_coins >>> shift
  if base_reward < final_subsidy cfg version then final_subsidy cfg version else base_reward

/-- Lines 122-127 of `get_block_reward`: the median weight after `//make it soft`. -/
def soft_median (cfg : Config) (median_weight version : Nat) : Nat :=
  let full_reward_zone := get_min_block_weight cfg version
  if median_weight < full_reward_zone then full_reward_zone else median_weight

/-- Lines 145-146 of `get_block_reward`:
`multiplicand = 2 * median_weight - current_block_weight; multiplicand *= current_block_weight;`
in 64-bit unsigned arithmetic. -/
def multiplicand (median_weight current_block_weight : Nat) : Nat :=
  mul64 (sub64 (mul64 2 median_weight) current_block_weight) current_block_weight

/-- Modelled from the spec: `mul128` of `int-util.h`, which is not among the sources at hand.
The spec asks for a wide multiply whose product never overflows: the full 128-bit product of two
64-bit words, returned as the pair (low word, high word). -/
def mul128 (multiplier multiplicand : Nat) : Nat × Nat :=
  ((multiplier * multiplicand) % U64, (multiplier * multiplicand) / U64 % U64)

/-- Modelled from the spec: `div128_32` of `int-util.h`, which is not among the sources at hand.
One pass of the spec's division of a 128-bit dividend (high word, low word) by a 32-bit divisor;
the quotient is returned as the pair (high word, low word).  A zero divisor has no result. -/
def div128_32 (dividend_hi dividend_lo divisor : Nat) : Option (Nat × Nat) :=
  if divisor = 0 then none
  else
    let quotient := (dividend_hi * U64 + dividend_lo) / divisor
    some (quotient / U64 % U64, quotient % U64)

/-- The C `assert(c)`: without effect when `NDEBUG` is defined, and otherwise the program is
aborted unless `c` holds. -/
def assert (ndebug : Bool) (c : Bool) : Option Unit :=
  if ndebug || c then some () else none

/-- `bool get_block_reward(size_t median_weight, size_t current_block_weight,
uint64_t already_generated_coins, uint64_t &reward, uint8_t version)`.

`reward` is the content of the reference parameter before the call; the result is the returned
`bool` together with the content of `reward` after the call.  `ndebug` tells whether the
translation unit is compiled with `NDEBUG`, which removes the four assertions. -/
def get_block_reward (cfg : Config) (ndebug : Bool)
    (median_weight current_block_weight already_generated_coins reward version : Nat) :
    Option (Bool × Nat) :=
  let emission_speed_factor := emission_speed_factor cfg version
  if version ≥ cfg.HF_VERSION_60 then
    some (true, cfg.MONERO_BLOCK_REWARD)
  else if emission_speed_factor < 0 ∨ 64 ≤ emission_speed_factor then
    none
  else
    let base_reward := base_reward cfg already_generated_coins version emission_speed_factor.toNat
    let median_weight := soft_median cfg median_weight version
    if current_block_weight ≤ median_weight then
      some (true, base_reward)
    else if current_block_weight > mul64 2 median_weight then
      some (false, reward)
    else do
      assert ndebug (decide (median_weight < UINT32_MAX))
      assert ndebug (decide (current_block_weight < UINT32_MAX))
      let multiplicand := multiplicand median_weight current_block_weight
      let (product_lo, product_hi) := mul128 base_reward multiplicand
      let (reward_hi, reward_lo) ← div128_32 product_hi product_lo (median_weight % 2 ^ 32)
      let (reward_hi, reward_lo) ← div128_32 reward_hi reward_lo (median_weight % 2 ^ 32)
      assert ndebug (decide (0 = reward_hi))
      assert ndebug (decide (reward_lo < base_reward))
      some (true, reward_lo)

/-- A configuration on which the embedding is evaluated at concrete inputs: the customary
CryptoNote values of the emission and block weight constants, and sample values for
`HF_VERSION_60` and `MONERO_BLOCK_REWARD`. -/
def sampleConfig : Config where
  MONEY_SUPPLY := 2 ^ 64 - 1
  EMISSION_SPEED_FACTOR_PER_MINUTE := 20
  FINAL_SUBSIDY_PER_MINUTE := 300000000000
  DIFFICULTY_TARGET_V1 := 60
  DIFFICULTY_TARGET_V2 := 120
  CRYPTONOTE_BLOCK_GRANTED_FULL_REWARD_ZONE_V1 := 20000
  CRYPTONOTE_BLOCK_GRANTED_FULL_REWARD_ZONE_V2 := 60000
  CRYPTONOTE_BLOCK_GRANTED_FULL_REWARD_ZONE_V5 := 300000
  HF_VERSION_60 := 60
  MONERO_BLOCK_REWARD := 5000000000000

/-! ## Block funding (`blockfunding.cpp`)

`fund_from_block` multiplies the reward by a `double` literal.  The arithmetic of `double` is
that of IEEE-754 binary64 with rounding to nearest, ties to even.  All values met here are
non-negative and of the form `mant / 2 ^ scale`, far from the overflow and underflow
thresholds, so a `double` is embedded as such a pair and every operation is exact integer
arithmetic followed by one rounding of the significand to 53 bits. -/

/-- The number of halvings that bring `n` below `2^53`, with `fuel` bounding their number. -/
def dropped_bits_aux : Nat → Nat → Nat
  | 0, _ => 0
  | fuel + 1, n => if n < 2 ^ 53 then 0 else dropped_bits_aux fuel (n / 2) + 1

/-- The excess of the bit length of `n` over 53: the number of low bits that a significand of
53 bits cannot hold. -/
def dropped_bits (n : Nat) : Nat := dropped_bits_aux n n

/-- Rounding of a natural number to 53 significant bits, to nearest, ties to even: the low
`s = dropped_bits n` bits are dropped, and the quotient moves up when the dropped part is more
than half a unit, or exactly half a unit with an odd quotient. -/
def round_nearest_even (n : Nat) : Nat :=
  let s := dropped_bits n
  let q := n / 2 ^ s
  let rem := n % 2 ^ s
  let q := if 2 ^ s < 2 * rem ∨ (2 * rem = 2 ^ s ∧ q % 2 = 1) then q + 1 else q
  q * 2 ^ s

/-- A non-negative `double`, of value `mant / 2 ^ scale`. -/
structure Double where
  mant : Nat
  scale : Nat
  deriving DecidableEq, Repr

namespace Double

/-- Conversion of a `uint64_t` to `double`, as in the usual arithmetic conversions. -/
def ofUInt64 (x : Nat) : Double := ⟨round_nearest_even x, 0⟩

/-- The product of two `double`s: the exact product, rounded once. -/
def mul (a b : Double) : Double := ⟨round_nearest_even (a.mant * b.mant), a.scale + b.scale⟩

/-- The cast `(uint64_t)d`: truncation toward zero.  The cast is defined for values below
`2^64` only; the products of `fund_from_block` never exceed the 64-bit reward they come from
(`funding_le` below). -/
def toUInt64 (d : Double) : Nat := d.mant / 2 ^ d.scale

end Double

/-- `#define MONERO_BLOCK_FUNDING_RATE 0.1`: the binary64 number nearest to one tenth,
`0x3FB999999999999A`. -/
def MONERO_BLOCK_FUNDING_RATE : Double := ⟨3602879701896397, 55⟩

/-- `#define MONERO_BLOCK_FUNDING_RATE_NEW 0.7`: the binary64 number nearest to seven tenths,
`0x3FE6666666666666`. -/
def MONERO_BLOCK_FUNDING_RATE_NEW : Double := ⟨6305039478318694, 53⟩

/-- `bool BlockFunding::fund_from_block(uint64_t original_reward, uint64_t& miner_reward,
uint64_t& funding, bool fork)`: the returned `bool`, then `miner_reward` and `funding` as they
are after the call. -/
def fund_from_block (original_reward : Nat) (fork : Bool) : Bool × Nat × Nat :=
  let funding :=
    if fork then ((Double.ofUInt64 original_reward).mul MONERO_BLOCK_FUNDING_RATE_NEW).toUInt64
    else ((Double.ofUInt64 original_reward).mul MONERO_BLOCK_FUNDING_RATE).toUInt64
  let miner_reward := sub64 original_reward funding
  (true, miner_reward, funding)

/-- `bool BlockFunding::check_block_funding(uint64_t actual_miner_reward,
uint64_t actual_funding, uint64_t real_reward, bool fork)`. -/
def check_block_funding (actual_miner_reward actual_funding real_reward : Nat) (fork : Bool) :
    Bool :=
  let (_, real_miner_reward, real_funding) := fund_from_block real_reward fork
  (actual_miner_reward == real_miner_reward) && (actual_funding == real_funding)

/-! ## Conditions on the configuration -/

/-- The shift of line 116 is defined: `emission_speed_factor` is a valid shift amount for a
64-bit operand. -/
def shift_defined (cfg : Config) (version : Nat) : Prop :=
  0 ≤ emission_speed_factor cfg version ∧ emission_speed_factor cfg version < 64

instance (cfg : Config) (version : Nat) : Decidable (shift_defined cfg version) := by
  unfold shift_defined; exact inferInstance

/-- The subsidy of the full reward zone, as `get_block_reward` computes it in lines 116-120. -/
def base (cfg : Config) (already_generated_coins version : Nat) : Nat :=
  base_reward cfg already_generated_coins version (emission_speed_factor cfg version).toNat

/-- The effective median of the spec: `max(median_weight, get_min_block_weight(version))`. -/
def effective_median (cfg : Config) (median_weight version : Nat) : Nat :=
  max median_weight (get_min_block_weight cfg version)

/-- The penalised subsidy in the words of the spec: the subsidy scaled by
`(2*M - w) * w / M^2`, as two successive integer divisions by `M`. -/
def penalized_subsidy (b M w : Nat) : Nat :=
  b * ((2 * M - w) * w) / M / M

/-! ## The funding ledger (`blockfunding.cpp`) -/

/-- Modelled from the spec: the enumeration `network_type` of `cryptonote_config.h`, which is not
among the sources at hand.  The spec names the four networks mainnet, stagenet, testnet and
regtest/fakechain and speaks of unknown network variants besides; `UNDEFINED` stands for every
value of the enumeration that is none of the four. -/
inductive network_type where
  | MAINNET
  | TESTNET
  | STAGENET
  | FAKECHAIN
  | UNDEFINED
  deriving DecidableEq, Repr

/-- `#define MONERO_ENABLE_FUNDING_HEIGHT_MAINNET 1686050`. -/
def MONERO_ENABLE_FUNDING_HEIGHT_MAINNET : Nat := 1686050

/-- `#define MONERO_ENABLE_FUNDING_HEIGHT_STAGENET 15`. -/
def MONERO_ENABLE_FUNDING_HEIGHT_STAGENET : Nat := 15

/-- `#define MONERO_ENABLE_FUNDING_HEIGHT_TESTNET 2950`. -/
def MONERO_ENABLE_FUNDING_HEIGHT_TESTNET : Nat := 2950

/-- `#define MONERO_ENABLE_FUNDING_HEIGHT_REGTESTNET 10`. -/
def MONERO_ENABLE_FUNDING_HEIGHT_REGTESTNET : Nat := 10

/-- `bool BlockFunding::funding_enabled(uint64_t height)`, with the member `m_network_type` as
first argument. -/
def funding_enabled (m_network_type : network_type) (height : Nat) : Bool :=
  if m_network_type = network_type.MAINNET then
    decide (height ≥ MONERO_ENABLE_FUNDING_HEIGHT_MAINNET)
  else if m_network_type = network_type.STAGENET then
    decide (height ≥ MONERO_ENABLE_FUNDING_HEIGHT_STAGENET)
  else if m_network_type = network_type.TESTNET then
    decide (height ≥ MONERO_ENABLE_FUNDING_HEIGHT_TESTNET)
  else if m_network_type = network_type.FAKECHAIN then
    decide (height ≥ MONERO_ENABLE_FUNDING_HEIGHT_REGTESTNET)
  else
    false

/-- The target of a transaction output (`txout_target_v`): a one-time key (`txout_to_key`) or
one of the other alternatives of the variant. -/
inductive txout_target_v (PublicKey : Type) where
  | txout_to_key (key : PublicKey)
  | other
  deriving DecidableEq, Repr

/-- An output of a transaction (`tx_out`). -/
structure tx_out (PublicKey : Type) where
  amount : Nat
  target : txout_target_v PublicKey
  deriving DecidableEq, Repr

/-- What `get_funding_from_miner_tx` reads of a `transaction`: the extra field and the
outputs. -/
structure transaction (PublicKey : Type) where
  extra : List Nat
  vout : List (tx_out PublicKey)
  deriving DecidableEq, Repr

/-- `bool BlockFunding::get_funding_from_miner_tx(const transaction& miner_tx,
uint64_t& funding_amount)`.

The collaborators `get_tx_pub_key_from_extra` and `is_out_to_acc` are declared outside the
sources at hand and are parameters, as are the types of the keys; `m_account_keys` is the member
of the ledger.  `funding_amount` is the content of the reference parameter before the call, and
the result is the returned `bool` with the content after the call.  There is no result when
`vout` is empty (the index `vout.size() - 1` is then out of bounds) and when the target of the
last output is not a `txout_to_key` (`boost::get` throws). -/
def get_funding_from_miner_tx {PublicKey AccountKeys : Type}
    (get_tx_pub_key_from_extra : List Nat → PublicKey)
    (is_out_to_acc : AccountKeys → PublicKey → PublicKey → List PublicKey → Nat → Bool)
    (m_account_keys : AccountKeys) (miner_tx : transaction PublicKey) (funding_amount : Nat) :
    Option (Bool × Nat) :=
  let tx_pub_key := get_tx_pub_key_from_extra miner_tx.extra
  match miner_tx.vout[sub64 miner_tx.vout.length 1]? with
  | none => none
  | some tax_out =>
    match tax_out.target with
    | txout_target_v.other => none
    | txout_target_v.txout_to_key funding_out_key =>
      let additional_derivations : List PublicKey := []
      if !is_out_to_acc m_account_keys funding_out_key tx_pub_key additional_derivations
          (sub64 miner_tx.vout.length 1) then
        some (false, funding_amount)
      else
        match miner_tx.vout[sub64 miner_tx.vout.length 1]? with
        | none => none
        | some out => some (true, out.amount)

/-- The keys of the funding account (`account_keys`), as far as `BlockFunding` writes them. -/
structure account_keys (Address : Type) where
  m_account_address : Address
  m_view_secret_key : List Nat
  deriving DecidableEq, Repr

/-- What `BlockFunding::get_funding_address_and_key` takes from outside the sources at hand: the
compiled-in strings of `cryptonote_config.h`, the address parser
`get_account_address_from_str` (its result is the parsed address, or nothing when it returns
`false`), the hex decoder `epee::string_tools::parse_hexstr_to_binbuff` (likewise) and
`sizeof(crypto::hash)`. -/
structure FundingEnv (Address : Type) where
  MONERO_FUNDING_ADDR : String
  MONERO_FUNDING_VIEW_SECRET_KEY : String
  stagenet_MONERO_FUNDING_ADDR : String
  stagenet_MONERO_FUNDING_VIEW_SECRET_KEY : String
  testnet_MONERO_FUNDING_ADDR : String
  testnet_MONERO_FUNDING_VIEW_SECRET_KEY : String
  get_account_address_from_str : network_type → String → Option Address
  parse_hexstr_to_binbuff : String → Option (List Nat)
  sizeof_crypto_hash : Nat

/-- The state of a `BlockFunding` object. -/
structure BlockFunding (Address : Type) where
  m_network_type : network_type
  m_account_keys : account_keys Address

/-- The `switch` of `BlockFunding::get_funding_address_and_key`: the address string and the
view secret key string of the network, or nothing in the `default` case. -/
def funding_strings {Address : Type} (env : FundingEnv Address)
    (m_network_type : network_type) : Option (String × String) :=
  match m_network_type with
  | network_type.FAKECHAIN => some (env.MONERO_FUNDING_ADDR, env.MONERO_FUNDING_VIEW_SECRET_KEY)
  | network_type.MAINNET => some (env.MONERO_FUNDING_ADDR, env.MONERO_FUNDING_VIEW_SECRET_KEY)
  | network_type.STAGENET =>
    some (env.stagenet_MONERO_FUNDING_ADDR, env.stagenet_MONERO_FUNDING_VIEW_SECRET_KEY)
  | network_type.TESTNET =>
    some (env.testnet_MONERO_FUNDING_ADDR, env.testnet_MONERO_FUNDING_VIEW_SECRET_KEY)
  | network_type.UNDEFINED => none

/-- `bool BlockFunding::get_funding_address_and_key(account_keys& funding_keys)`: the returned
`bool` and `funding_keys` after the call. -/
def get_funding_address_and_key {Address : Type} (env : FundingEnv Address)
    (m_network_type : network_type) (funding_keys : account_keys Address) :
    Bool × account_keys Address :=
  match funding_strings env m_network_type with
  | none => (false, funding_keys)
  | some (funding_addr, funding_view_secret_key) =>
    match env.get_account_address_from_str m_network_type funding_addr with
    | none => (false, funding_keys)
    | some address =>
      let funding_keys := { funding_keys with m_account_address := address }
      match env.parse_hexstr_to_binbuff funding_view_secret_key with
      | none => (false, funding_keys)
      | some view_secret_key_data =>
        if view_secret_key_data.length ≠ env.sizeof_crypto_hash then (false, funding_keys)
        else (true, { funding_keys with m_view_secret_key := view_secret_key_data })

/-- `bool BlockFunding::init(const network_type nettype)`: the returned `bool` and the object
after the call. -/
def BlockFunding.init {Address : Type} (env : FundingEnv Address) (self : BlockFunding Address)
    (nettype : network_type) : Bool × BlockFunding Address :=
  let m_network_type := nettype
  let r := get_funding_address_and_key env m_network_type self.m_account_keys
  if !r.1 then (false, ⟨m_network_type, r.2⟩) else (true, ⟨m_network_type, r.2⟩)

/-! ## The stake reward rate (`cryptonote_basic_impl.cpp`) -/

/-- The literal `0.0`. -/
def Double.zero : Double := ⟨0, 0⟩

/-- The literal `1.0`. -/
def Double.one : Double := ⟨1, 0⟩

/-- The quotient of two `double`s, for a divisor other than zero (the divisors of
`get_pos_block_reward_rate` are a table entry and the constant 360): the exact quotient,
rounded once.  The quotient of the two numerators is taken with at least 55 bits and a sticky
bit below them that tells whether the division left a remainder, which is enough for the
rounding to 53 bits to see what the exact quotient is nearest to. -/
def Double.div (a b : Double) : Double :=
  let n := a.mant * 2 ^ b.scale
  let d := b.mant * 2 ^ a.scale
  let t := 108 + dropped_bits d
  let q := n * 2 ^ t / d
  let sticky := if n * 2 ^ t % d = 0 then 0 else 1
  ⟨round_nearest_even (2 * q + sticky), t + 1⟩

/-- `const uint64_t BLOCK_PER_YEAR = 259200;` -/
def BLOCK_PER_YEAR : Nat := 259200

/-- `const uint64_t FULL_STAKE_COINS_OVER_YEAR[13]`. -/
def FULL_STAKE_COINS_OVER_YEAR : List Nat :=
  [300000, 600000, 900000, 1350000, 2025000, 2632500, 3422250, 4448925, 5338710, 6406452,
    7687742, 9225290, 10000000]

/-- `ARRAY_SIZE(FULL_STAKE_COINS_OVER_YEAR)`, that is
`sizeof(a) / sizeof(a[0])`. -/
def ARRAY_SIZE_FULL_STAKE_COINS_OVER_YEAR : Nat := FULL_STAKE_COINS_OVER_YEAR.length

/-- `const uint64_t FULL_STAKE_TIME_DAYS = 12 * 30;` -/
def FULL_STAKE_TIME_DAYS : Nat := 12 * 30

/-- The constants of `cryptonote_config.h` that `get_pos_block_reward_rate` reads beside those
of `Config`; they are parameters of the embedding as well. -/
structure StakeConfig extends Config where
  COIN : Nat
  STAKE_START_HEIGHT : Nat
  STAKE_STATR_HEIGHT_TESTNET : Nat
  CRYPTONOTE_MAX_BLOCK_NUMBER : Nat
  MONERO_BLOCK_PER_DAY : Nat
  deriving DecidableEq, Repr

/-- `uint64_t start_height = (type == network_type::TESTNET ? STAKE_STATR_HEIGHT_TESTNET :
STAKE_START_HEIGHT);` -/
def stake_start_height (cfg : StakeConfig) (type : network_type) : Nat :=
  if type = network_type.TESTNET then cfg.STAKE_STATR_HEIGHT_TESTNET else cfg.STAKE_START_HEIGHT

/-- Lines 358-363 of `get_pos_block_reward_rate`: the selection of `full_stake_coins`.  A read
outside the table has no result. -/
def full_stake_coins (start_height cur_height : Nat) : Option Nat :=
  let elapse_index := sub64 cur_height start_height / BLOCK_PER_YEAR
  if elapse_index ≥ ARRAY_SIZE_FULL_STAKE_COINS_OVER_YEAR then
    FULL_STAKE_COINS_OVER_YEAR[ARRAY_SIZE_FULL_STAKE_COINS_OVER_YEAR - 1]?
  else
    FULL_STAKE_COINS_OVER_YEAR[elapse_index]?

/-- Lines 369-381 of `get_pos_block_reward_rate`: `delta_height` before the clamp.  The outer
`none` is a division by zero, the inner `none` is a `break`. -/
def lock_delta_height (cfg : StakeConfig) (unlock_time block_height block_time : Nat) :
    Option (Option Nat) :=
  if unlock_time < cfg.CRYPTONOTE_MAX_BLOCK_NUMBER then
    if unlock_time < block_height then some none
    else some (some (sub64 unlock_time block_height))
  else
    if unlock_time < block_time then some none
    else if cfg.DIFFICULTY_TARGET_V2 = 0 then none
    else some (some (sub64 unlock_time block_time / cfg.DIFFICULTY_TARGET_V2))

/-- Line 394 of `get_pos_block_reward_rate`: the chain `1.0 * staked_coins / full_stake_coins *
delta_days / FULL_STAKE_TIME_DAYS * delta_days / FULL_STAKE_TIME_DAYS`, evaluated from left to
right in `double`, each integer operand being converted to `double` first. -/
def reward_rate_chain (staked_coins full_stake_coins delta_days : Nat) : Double :=
  ((((((Double.one.mul (Double.ofUInt64 staked_coins)).div (Double.ofUInt64 full_stake_coins)).mul
    (Double.ofUInt64 delta_days)).div (Double.ofUInt64 FULL_STAKE_TIME_DAYS)).mul
    (Double.ofUInt64 delta_days)).div (Double.ofUInt64 FULL_STAKE_TIME_DAYS))

/-- `double get_pos_block_reward_rate(uint64_t unlock_time, uint64_t block_height,
uint64_t block_time, uint64_t staked_coins, uint64_t cur_height, network_type type)`.  There is
no result when an integer division divides by zero or the table is read out of bounds. -/
def get_pos_block_reward_rate (cfg : StakeConfig)
    (unlock_time block_height block_time staked_coins cur_height : Nat) (type : network_type) :
    Option Double :=
  let reward_rate := Double.zero
  if cfg.COIN = 0 then none
  else
    let staked_coins := staked_coins / cfg.COIN
    if staked_coins = 0 then some reward_rate
    else
      let start_height := stake_start_height cfg type
      if cur_height < start_height then some reward_rate
      else
        match full_stake_coins start_height cur_height with
        | none => none
        | some full_stake_coins =>
          match lock_delta_height cfg unlock_time block_height block_time with
          | none => none
          | some none => some reward_rate
          | some (some delta_height) =>
            let delta_height :=
              if delta_height > BLOCK_PER_YEAR then BLOCK_PER_YEAR else delta_height
            if cfg.MONERO_BLOCK_PER_DAY = 0 then none
            else
              let delta_days := delta_height / cfg.MONERO_BLOCK_PER_DAY
              if delta_days = 0 then some reward_rate
              else some (reward_rate_chain staked_coins full_stake_coins delta_days)

/-- A stake configuration on which the embedding is evaluated at concrete inputs: `sampleConfig`
with one coin of `10^12` atomic units, 720 blocks a day and sample activation heights. -/
def sampleStakeConfig : StakeConfig where
  toConfig := sampleConfig
  COIN := 1000000000000
  STAKE_START_HEIGHT := 2000000
  STAKE_STATR_HEIGHT_TESTNET := 3000
  CRYPTONOTE_MAX_BLOCK_NUMBER := 500000000
  MONERO_BLOCK_PER_DAY := 720

/-- An environment on which `BlockFunding::init` is evaluated: a parser that accepts one
address string for each network and a decoder that accepts one key string. -/
def sampleFundingEnv : FundingEnv String where
  MONERO_FUNDING_ADDR := "main address"
  MONERO_FUNDING_VIEW_SECRET_KEY := "main key"
  stagenet_MONERO_FUNDING_ADDR := "stage address"
  stagenet_MONERO_FUNDING_VIEW_SECRET_KEY := "stage key"
  testnet_MONERO_FUNDING_ADDR := "test address"
  testnet_MONERO_FUNDING_VIEW_SECRET_KEY := "bad key"
  get_account_address_from_str := fun t str =>
    if (t = network_type.MAINNET ∧ str = "main address") ∨
        (t = network_type.TESTNET ∧ str = "test address") then some str else none
  parse_hexstr_to_binbuff := fun str =>
    if str = "main key" ∨ str = "stage key" then some (List.replicate 32 0)
    else if str = "bad key" then some (List.replicate 31 0) else none
  sizeof_crypto_hash := 32

/-- The table entry that the spec selects for the elapsed years `i`: the entry of index `i`,
and the last entry once `i` exceeds the table. -/
def full_stake_cap (i : Nat) : Nat :=
  FULL_STAKE_COINS_OVER_YEAR.getD (min i 12) 0

/-- The value of a `double`. -/
def Double.toRat (a : Double) : ℚ := (a.mant : ℚ) / 2 ^ a.scale

/-- The two numbers are within `k` relative steps of `2^-52` of each other. -/
@[irreducible]
def near (k : Nat) (x y : ℚ) : Prop :=
  y ≤ x * (1 + 1 / 2 ^ 52) ^ k ∧ x ≤ y * (1 + 1 / 2 ^ 52) ^ k

/-- `uint64_t BlockFunding::get_funding_enabled_height()`, with the member `m_network_type`
as argument.  The function has branches for MAINNET, STAGENET and TESTNET and ends in
`return 0;`. -/
def get_funding_enabled_height (m_network_type : network_type) : Nat :=
  if m_network_type = network_type.MAINNET then
    MONERO_ENABLE_FUNDING_HEIGHT_MAINNET
  else if m_network_type = network_type.STAGENET then
    MONERO_ENABLE_FUNDING_HEIGHT_STAGENET
  else if m_network_type = network_type.TESTNET then
    MONERO_ENABLE_FUNDING_HEIGHT_TESTNET
  else
    0

/-! ## Arithmetic lemmas -/

theorem sub64_lt (a b : Nat) : sub64 a b < U64 :=
  Nat.mod_lt _ (by decide)

theorem mul64_lt (a b : Nat) : mul64 a b < U64 :=
  Nat.mod_lt _ (by decide)

theorem mul64_le (a b : Nat) : mul64 a b ≤ a * b :=
  Nat.mod_le _ _

theorem sub64_of_le {a b : Nat} (hb : b ≤ a) (ha : a < U64) : sub64 a b = a - b := by
  unfold sub64 U64 at *
  omega

theorem mul64_of_lt {a b : Nat} (h : a * b < U64) : mul64 a b = a * b :=
  Nat.mod_eq_of_lt h

theorem soft_median_eq (cfg : Config) (median_weight version : Nat) :
    soft_median cfg median_weight version = effective_median cfg median_weight version := by
  unfold soft_median effective_median
  simp only
  split
  · omega
  · omega

theorem base_reward_lt (cfg : Config) (agc version shift : Nat) :
    base_reward cfg agc version shift < U64 := by
  unfold base_reward
  simp only
  split
  · exact mul64_lt _ _
  · rw [Nat.shiftRight_eq_div_pow]
    exact lt_of_le_of_lt (Nat.div_le_self _ _) (sub64_lt _ _)

theorem base_reward_eq_max (cfg : Config) (agc version shift : Nat) :
    base_reward cfg agc version shift
      = max (sub64 cfg.MONEY_SUPPLY agc >>> shift) (final_subsidy cfg version) := by
  unfold base_reward
  simp only
  split
  · omega
  · omega

theorem final_subsidy_le_base (cfg : Config) (agc version : Nat) :
    final_subsidy cfg version ≤ base cfg agc version := by
  unfold base
  rw [base_reward_eq_max]
  exact le_max_right _ _

/-- In the penalty zone the two factors of the multiplicand multiply to less than `M * M`. -/
theorem penalty_factor_lt {M w : Nat} (h1 : M < w) (h2 : w ≤ 2 * M) :
    (2 * M - w) * w < M * M := by
  obtain ⟨d, rfl⟩ : ∃ d, w = M + d := ⟨w - M, by omega⟩
  obtain ⟨e, rfl⟩ : ∃ e, M = e + d := ⟨M - d, by omega⟩
  have h3 : 2 * (e + d) - (e + d + d) = e := by omega
  rw [h3]
  have hd : 0 < d := by omega
  nlinarith [Nat.mul_pos hd hd]

theorem U64_eq : U64 = 18446744073709551616 := rfl

theorem UINT32_MAX_eq : UINT32_MAX = 4294967295 := rfl

theorem square_lt_U64 {M : Nat} (hM : M < UINT32_MAX) : M * M < U64 := by
  rw [UINT32_MAX_eq] at hM
  rw [U64_eq]
  have : M * M ≤ 4294967295 * 4294967295 := Nat.mul_le_mul (by omega) (by omega)
  omega

theorem multiplicand_eq {M w : Nat} (hM : M < UINT32_MAX) (h1 : M < w) (h2 : w ≤ 2 * M) :
    multiplicand M w = (2 * M - w) * w := by
  have hlt := penalty_factor_lt h1 h2
  have hMM := square_lt_U64 hM
  rw [UINT32_MAX_eq] at hM
  unfold multiplicand
  have h2M : mul64 2 M = 2 * M := mul64_of_lt (by rw [U64_eq]; omega)
  rw [h2M, sub64_of_le h2 (by rw [U64_eq]; omega)]
  exact mul64_of_lt (lt_trans hlt hMM)

theorem mul128_exact {a b : Nat} (ha : a < U64) (hb : b < U64) :
    (mul128 a b).2 * U64 + (mul128 a b).1 = a * b := by
  unfold mul128
  simp only
  have h : a * b < U64 * U64 := Nat.mul_lt_mul_of_lt_of_le ha (le_of_lt hb) (by decide)
  rw [Nat.mod_eq_of_lt (Nat.div_lt_of_lt_mul h)]
  exact Nat.div_add_mod' _ _

theorem div128_32_exact {hi lo d : Nat} (hd : d ≠ 0) (hhi : hi < U64) (hlo : lo < U64) :
    div128_32 hi lo d
      = some ((hi * U64 + lo) / d / U64, (hi * U64 + lo) / d % U64) := by
  unfold div128_32
  rw [if_neg hd]
  simp only
  have h : (hi * U64 + lo) / d < U64 * U64 := by
    have h1 : hi * U64 + lo < U64 * U64 := by
      have : hi * U64 ≤ (U64 - 1) * U64 := Nat.mul_le_mul_right _ (by omega)
      rw [U64_eq] at *
      omega
    exact lt_of_le_of_lt (Nat.div_le_self _ _) h1
  rw [Nat.mod_eq_of_lt (Nat.div_lt_of_lt_mul h)]

/-- The penalised subsidy never exceeds the subsidy, and is below it when the subsidy is
positive. -/
theorem penalized_subsidy_le {b M w : Nat} (h1 : M < w) (h2 : w ≤ 2 * M) :
    penalized_subsidy b M w ≤ b := by
  unfold penalized_subsidy
  have hM : 0 < M := by omega
  rw [Nat.div_div_eq_div_mul]
  apply Nat.div_le_of_le_mul
  rw [Nat.mul_comm (M * M) b]
  exact Nat.mul_le_mul_left _ (le_of_lt (penalty_factor_lt h1 h2))

theorem penalized_subsidy_lt {b M w : Nat} (hb : 0 < b) (h1 : M < w) (h2 : w ≤ 2 * M) :
    penalized_subsidy b M w < b := by
  unfold penalized_subsidy
  have hM : 0 < M := by omega
  rw [Nat.div_div_eq_div_mul, Nat.div_lt_iff_lt_mul (Nat.mul_pos hM hM)]
  exact Nat.mul_lt_mul_of_pos_left (penalty_factor_lt h1 h2) hb

/-- The code path of the penalty zone (lines 139-157): with the effective median below
`UINT32_MAX`, and either the assertions compiled out or the block weight below `UINT32_MAX`
and the subsidy positive, `get_block_reward` returns `true` and the penalised subsidy. -/
theorem get_block_reward_penalty (cfg : Config) (ndebug : Bool)
    (median_weight current_block_weight already_generated_coins reward version : Nat)
    (hv : version < cfg.HF_VERSION_60) (hs : shift_defined cfg version)
    (hM : effective_median cfg median_weight version < UINT32_MAX)
    (h1 : effective_median cfg median_weight version < current_block_weight)
    (h2 : current_block_weight ≤ 2 * effective_median cfg median_weight version)
    (ha : ndebug = true ∨
      (current_block_weight < UINT32_MAX ∧ 0 < base cfg already_generated_coins version)) :
    get_block_reward cfg ndebug median_weight current_block_weight already_generated_coins
        reward version
      = some (true, penalized_subsidy (base cfg already_generated_coins version)
          (effective_median cfg median_weight version) current_block_weight) := by
  unfold get_block_reward
  simp only [soft_median_eq]
  rw [if_neg (by omega), if_neg (by unfold shift_defined at hs; omega)]
  set M := effective_median cfg median_weight version with hMdef
  have hb : base_reward cfg already_generated_coins version
      (emission_speed_factor cfg version).toNat = base cfg already_generated_coins version := rfl
  rw [hb]
  set b := base cfg already_generated_coins version with hbdef
  have hblt : b < U64 := base_reward_lt _ _ _ _
  have hM32 : M < 4294967295 := hM
  have h2M : mul64 2 M = 2 * M := mul64_of_lt (by rw [U64_eq]; omega)
  rw [if_neg (by omega), if_neg (by rw [h2M]; omega)]
  have hmult := multiplicand_eq hM h1 h2
  have hmlt : multiplicand M current_block_weight < U64 := mul64_lt _ _
  have hMmod : M % 2 ^ 32 = M := Nat.mod_eq_of_lt (by omega)
  have hMne : M ≠ 0 := by omega
  have hprod := mul128_exact hblt hmlt
  have hq1 : penalized_subsidy b M current_block_weight < U64 :=
    lt_of_le_of_lt (penalized_subsidy_le h1 h2) hblt
  have hassert1 : assert ndebug (decide (M < UINT32_MAX)) = some () := by
    unfold assert; simp [hM]
  have hassert2 : assert ndebug (decide (current_block_weight < UINT32_MAX)) = some () := by
    unfold assert
    rcases ha with ha | ha
    · simp [ha]
    · simp [ha.1]
  simp only [hassert1, hassert2, Option.bind_eq_bind, Option.some_bind, hMmod]
  have hhi : (mul128 b (multiplicand M current_block_weight)).2 < U64 :=
    Nat.mod_lt _ (by decide)
  have hlo : (mul128 b (multiplicand M current_block_weight)).1 < U64 :=
    Nat.mod_lt _ (by decide)
  rw [div128_32_exact hMne hhi hlo, hprod, hmult, Option.some_bind]
  simp only
  set q := b * ((2 * M - current_block_weight) * current_block_weight) / M with hq
  have hqlt : q / U64 < U64 := by
    have h3 : q ≤ b * ((2 * M - current_block_weight) * current_block_weight) :=
      Nat.div_le_self _ _
    have h4 : b * ((2 * M - current_block_weight) * current_block_weight) < U64 * U64 :=
      Nat.mul_lt_mul_of_lt_of_le hblt (by rw [← hmult]; exact le_of_lt hmlt) (by decide)
    exact Nat.div_lt_of_lt_mul (lt_of_le_of_lt h3 h4)
  rw [div128_32_exact hMne hqlt (Nat.mod_lt _ (by decide)), Nat.div_add_mod' q U64,
    Option.some_bind]
  simp only
  have hp : q / M = penalized_subsidy b M current_block_weight := rfl
  rw [hp, Nat.div_eq_of_lt hq1, Nat.mod_eq_of_lt hq1]
  have hassert3 : assert ndebug (decide (0 = 0)) = some () := by
    unfold assert; simp
  have hassert4 :
      assert ndebug (decide (penalized_subsidy b M current_block_weight < b)) = some () := by
    unfold assert
    rcases ha with ha | ha
    · simp [ha]
    · simp [penalized_subsidy_lt ha.2 h1 h2]
  rw [hassert3, Option.some_bind, hassert4, Option.some_bind]

/-! ## The block reward -/

/-- C1: for every version at or above `HF_VERSION_60`, whatever the median weight, the block
weight (also above twice the effective median) and the coins generated so far,
`get_block_reward` returns `true` and sets `reward` to `MONERO_BLOCK_REWARD`. -/
theorem get_block_reward_flat (cfg : Config) (ndebug : Bool)
    (median_weight current_block_weight already_generated_coins reward version : Nat)
    (hv : cfg.HF_VERSION_60 ≤ version) :
    get_block_reward cfg ndebug median_weight current_block_weight already_generated_coins
        reward version
      = some (true, cfg.MONERO_BLOCK_REWARD) := by
  unfold get_block_reward
  simp only
  rw [if_pos hv]

theorem get_block_reward_flat_witness :
    sampleConfig.HF_VERSION_60 ≤ 60 ∧
      get_block_reward sampleConfig false 0 900000 7 11 60
        = some (true, sampleConfig.MONERO_BLOCK_REWARD) :=
  ⟨by decide, get_block_reward_flat sampleConfig false 0 900000 7 11 60 (by decide)⟩

/-- C2: for every version below `HF_VERSION_60` and every block weight not above
`max(median_weight, get_min_block_weight(version))`, `get_block_reward` returns `true` and the
reward is `max((MONEY_SUPPLY - already_generated_coins) >> emission_speed_factor,
FINAL_SUBSIDY_PER_MINUTE * target_minutes)` in the 64-bit arithmetic of the code, with
`emission_speed_factor = EMISSION_SPEED_FACTOR_PER_MINUTE - (target_minutes - 1)` and
`target_minutes` the sixtieth of `DIFFICULTY_TARGET_V1` below version 2 and of
`DIFFICULTY_TARGET_V2` from version 2 on. -/
theorem get_block_reward_full_zone (cfg : Config) (ndebug : Bool)
    (median_weight current_block_weight already_generated_coins reward version : Nat)
    (hv : version < cfg.HF_VERSION_60) (hs : shift_defined cfg version)
    (hw : current_block_weight ≤ max median_weight (get_min_block_weight cfg version)) :
    get_block_reward cfg ndebug median_weight current_block_weight already_generated_coins
        reward version
      = some (true,
          max
            (sub64 cfg.MONEY_SUPPLY already_generated_coins >>>
              ((cfg.EMISSION_SPEED_FACTOR_PER_MINUTE : Int) -
                ((((if version < 2 then cfg.DIFFICULTY_TARGET_V1
                    else cfg.DIFFICULTY_TARGET_V2) / 60 : Nat) : Int) - 1)).toNat)
            (mul64 cfg.FINAL_SUBSIDY_PER_MINUTE
              ((if version < 2 then cfg.DIFFICULTY_TARGET_V1
                else cfg.DIFFICULTY_TARGET_V2) / 60))) := by
  unfold get_block_reward
  simp only [soft_median_eq]
  rw [if_neg (by omega), if_neg (by unfold shift_defined at hs; omega)]
  rw [if_pos (by unfold effective_median; exact hw), base_reward_eq_max]
  rfl

theorem get_block_reward_full_zone_witness :
    (7 < sampleConfig.HF_VERSION_60 ∧ shift_defined sampleConfig 7 ∧
      300000 ≤ max 1000 (get_min_block_weight sampleConfig 7)) ∧
      get_block_reward sampleConfig false 1000 300000 18446744073709551615 11 7
        = some (true, 600000000000) :=
  ⟨by decide,
    get_block_reward_full_zone sampleConfig false 1000 300000 18446744073709551615 11 7
      (by decide) (by decide) (by decide)⟩

/-- C3: for every version below `HF_VERSION_60` and every block weight above twice
`max(median_weight, get_min_block_weight(version))`, `get_block_reward` returns `false` and
leaves `reward` as it was; in particular so for a median weight of 0 and a block weight of
three times `get_min_block_weight(version)`. -/
theorem get_block_reward_oversized (cfg : Config) (ndebug : Bool)
    (median_weight current_block_weight already_generated_coins reward version : Nat)
    (hv : version < cfg.HF_VERSION_60) (hs : shift_defined cfg version)
    (hw : 2 * max median_weight (get_min_block_weight cfg version) < current_block_weight) :
    get_block_reward cfg ndebug median_weight current_block_weight already_generated_coins
        reward version = some (false, reward) ∧
      (0 < get_min_block_weight cfg version →
        get_block_reward cfg ndebug 0 (3 * get_min_block_weight cfg version)
          already_generated_coins reward version = some (false, reward)) := by
  have key : ∀ m w : Nat, 2 * max m (get_min_block_weight cfg version) < w →
      get_block_reward cfg ndebug m w already_generated_coins reward version
        = some (false, reward) := by
    intro m w h
    unfold get_block_reward
    simp only [soft_median_eq]
    rw [if_neg (by omega), if_neg (by unfold shift_defined at hs; omega)]
    have h2 := mul64_le 2 (effective_median cfg m version)
    unfold effective_median at *
    rw [if_neg (by omega), if_pos (by omega)]
  refine ⟨key _ _ hw, fun hpos => key _ _ ?_⟩
  rw [Nat.max_eq_right (Nat.zero_le _)]
  omega

theorem get_block_reward_oversized_witness :
    (7 < sampleConfig.HF_VERSION_60 ∧ shift_defined sampleConfig 7 ∧
      2 * max 0 (get_min_block_weight sampleConfig 7)
        < 3 * get_min_block_weight sampleConfig 7) ∧
      (get_block_reward sampleConfig false 0 (3 * get_min_block_weight sampleConfig 7) 5 11 7
          = some (false, 11) ∧
        (0 < get_min_block_weight sampleConfig 7 →
          get_block_reward sampleConfig false 0 (3 * get_min_block_weight sampleConfig 7) 5 11 7
            = some (false, 11))) :=
  ⟨by decide,
    get_block_reward_oversized sampleConfig false 0
      (3 * get_min_block_weight sampleConfig 7) 5 11 7 (by decide) (by decide) (by decide)⟩

/-- The factor `(2*M - w) * w` loses at least 3 when the block weight grows inside the
penalty zone. -/
theorem penalty_factor_step {M w1 w2 : Nat} (h1 : M < w1) (h12 : w1 < w2) (h2 : w2 ≤ 2 * M) :
    (2 * M - w2) * w2 + 3 ≤ (2 * M - w1) * w1 := by
  obtain ⟨d, rfl⟩ : ∃ d, w1 = M + 1 + d := ⟨w1 - (M + 1), by omega⟩
  obtain ⟨k, rfl⟩ : ∃ k, w2 = M + 1 + d + 1 + k := ⟨w2 - (M + 1 + d + 1), by omega⟩
  obtain ⟨e, rfl⟩ : ∃ e, M = e + (1 + d + 1 + k) := ⟨M - (1 + d + 1 + k), by omega⟩
  have e1 : 2 * (e + (1 + d + 1 + k)) - (e + (1 + d + 1 + k) + 1 + d + 1 + k) = e := by omega
  have e2 : 2 * (e + (1 + d + 1 + k)) - (e + (1 + d + 1 + k) + 1 + d) = e + 1 + k := by
    omega
  rw [e1, e2]
  nlinarith [Nat.zero_le (d * k), Nat.zero_le (e * k), Nat.zero_le (k * k),
    Nat.zero_le (d * d), Nat.zero_le (e * d)]

theorem penalized_subsidy_mono {b M w1 w2 : Nat} (h1 : M < w1) (h12 : w1 < w2)
    (h2 : w2 ≤ 2 * M) : penalized_subsidy b M w2 ≤ penalized_subsidy b M w1 := by
  unfold penalized_subsidy
  have h := penalty_factor_step h1 h12 h2
  exact Nat.div_le_div_right (Nat.div_le_div_right (Nat.mul_le_mul_left _ (by omega)))

theorem penalized_subsidy_strict {b M w1 w2 : Nat} (h1 : M < w1) (h12 : w1 < w2)
    (h2 : w2 ≤ 2 * M) (hb : M * M ≤ 3 * b) :
    penalized_subsidy b M w2 < penalized_subsidy b M w1 := by
  unfold penalized_subsidy
  have h := penalty_factor_step h1 h12 h2
  have hM : 0 < M * M := Nat.mul_pos (by omega) (by omega)
  rw [Nat.div_div_eq_div_mul, Nat.div_div_eq_div_mul]
  have h3 : b * ((2 * M - w2) * w2) + M * M ≤ b * ((2 * M - w1) * w1) := by
    have : b * ((2 * M - w2) * w2 + 3) ≤ b * ((2 * M - w1) * w1) := Nat.mul_le_mul_left _ h
    rw [Nat.mul_add] at this
    omega
  have h4 : b * ((2 * M - w2) * w2) / (M * M) + 1
      = (b * ((2 * M - w2) * w2) + M * M) / (M * M) := by
    rw [Nat.add_div_right _ hM]
  have h5 := Nat.div_le_div_right (c := M * M) h3
  omega

theorem penalized_subsidy_pos_iff {b M w : Nat} (hM : 0 < M) :
    0 < penalized_subsidy b M w ↔ M * M ≤ b * ((2 * M - w) * w) := by
  unfold penalized_subsidy
  rw [Nat.div_div_eq_div_mul]
  exact Nat.div_pos_iff (Nat.mul_pos hM hM).ne'

/-- C4, as amended: for every version below `HF_VERSION_60`, every effective median
`M < 2^32 - 1` and every block weight `w` with `M < w ≤ 2*M`, when the subsidy `base` is
positive and either the assertions are compiled out or `w < 2^32 - 1`, `get_block_reward`
returns `true` with a reward below `base`; the reward is positive exactly when
`M * M ≤ base * ((2*M - w) * w)`, hence whenever `w < 2*M` and `M ≤ base`, and it is 0 at
`w = 2*M`. -/
theorem get_block_reward_penalty_bounds (cfg : Config) (ndebug : Bool)
    (median_weight current_block_weight already_generated_coins reward version : Nat)
    (hv : version < cfg.HF_VERSION_60) (hs : shift_defined cfg version)
    (hM : effective_median cfg median_weight version < UINT32_MAX)
    (h1 : effective_median cfg median_weight version < current_block_weight)
    (h2 : current_block_weight ≤ 2 * effective_median cfg median_weight version)
    (hb : 0 < base cfg already_generated_coins version)
    (ha : ndebug = true ∨ current_block_weight < UINT32_MAX) :
    ∃ r, get_block_reward cfg ndebug median_weight current_block_weight
          already_generated_coins reward version = some (true, r) ∧
      r < base cfg already_generated_coins version ∧
      (0 < r ↔ effective_median cfg median_weight version
            * effective_median cfg median_weight version
          ≤ base cfg already_generated_coins version
            * ((2 * effective_median cfg median_weight version - current_block_weight)
              * current_block_weight)) ∧
      (current_block_weight < 2 * effective_median cfg median_weight version →
        effective_median cfg median_weight version ≤ base cfg already_generated_coins version →
        0 < r) ∧
      (current_block_weight = 2 * effective_median cfg median_weight version → r = 0) := by
  have hM0 : 0 < effective_median cfg median_weight version := by omega
  refine ⟨_, get_block_reward_penalty cfg ndebug median_weight current_block_weight
    already_generated_coins reward version hv hs hM h1 h2
    (ha.imp id fun h => ⟨h, hb⟩), penalized_subsidy_lt hb h1 h2,
    penalized_subsidy_pos_iff hM0, ?_, ?_⟩
  · intro hlt hle
    rw [penalized_subsidy_pos_iff hM0]
    have h3 : effective_median cfg median_weight version
        ≤ (2 * effective_median cfg median_weight version - current_block_weight)
          * current_block_weight :=
      le_trans (le_of_lt h1) (Nat.le_mul_of_pos_left _ (by omega))
    exact Nat.mul_le_mul hle h3
  · intro heq
    unfold penalized_subsidy
    rw [heq, Nat.sub_self, Nat.zero_mul, Nat.mul_zero, Nat.zero_div, Nat.zero_div]

theorem get_block_reward_penalty_bounds_witness :
    (7 < sampleConfig.HF_VERSION_60 ∧ shift_defined sampleConfig 7 ∧
      effective_median sampleConfig 0 7 < UINT32_MAX ∧
      effective_median sampleConfig 0 7 < 450000 ∧
      450000 ≤ 2 * effective_median sampleConfig 0 7 ∧
      0 < base sampleConfig 0 7 ∧ ((false = true) ∨ 450000 < UINT32_MAX)) ∧
    ∃ r, get_block_reward sampleConfig false 0 450000 0 11 7 = some (true, r) ∧
      r < base sampleConfig 0 7 ∧
      (0 < r ↔ effective_median sampleConfig 0 7 * effective_median sampleConfig 0 7
          ≤ base sampleConfig 0 7
            * ((2 * effective_median sampleConfig 0 7 - 450000) * 450000)) ∧
      (450000 < 2 * effective_median sampleConfig 0 7 →
        effective_median sampleConfig 0 7 ≤ base sampleConfig 0 7 → 0 < r) ∧
      (450000 = 2 * effective_median sampleConfig 0 7 → r = 0) :=
  ⟨by decide,
    get_block_reward_penalty_bounds sampleConfig false 0 450000 0 11 7 (by decide) (by decide)
      (by decide) (by decide) (by decide) (by decide) (by decide)⟩

/-- C4 fails as stated.  At a block weight of exactly twice the effective median
(`median_weight = 0`, version 7, weight `600000 = 2 * 300000`) the reward is 0, not a positive
amount.  And with the assertions compiled in, the effective median `2^32 - 2` and the block
weight `2^32 - 1` stop at `assert(current_block_weight < UINT32_MAX)`, so that nothing is
returned. -/
theorem get_block_reward_penalty_bounds_fails :
    ((7 < sampleConfig.HF_VERSION_60 ∧ effective_median sampleConfig 0 7 < UINT32_MAX ∧
        effective_median sampleConfig 0 7 < 600000 ∧
        600000 ≤ 2 * effective_median sampleConfig 0 7) ∧
      ∀ ndebug, ¬ ∃ r, get_block_reward sampleConfig ndebug 0 600000 0 11 7 = some (true, r) ∧
        0 < r ∧ r < base sampleConfig 0 7) ∧
    ((effective_median sampleConfig 4294967294 7 < UINT32_MAX ∧
        effective_median sampleConfig 4294967294 7 < 4294967295 ∧
        4294967295 ≤ 2 * effective_median sampleConfig 4294967294 7) ∧
      get_block_reward sampleConfig false 4294967294 4294967295 0 11 7 = none) := by
  refine ⟨⟨by decide, ?_⟩, by decide, by decide⟩
  intro ndebug
  rintro ⟨r, h, hpos, -⟩
  have h0 : get_block_reward sampleConfig ndebug 0 600000 0 11 7 = some (true, 0) := by
    cases ndebug <;> decide
  rw [h0] at h
  injection h with h
  injection h with _ h
  omega

/-- C5, as amended: for every version below `HF_VERSION_60`, fixed coins generated and fixed
effective median `M < 2^32 - 1`, and two block weights `M < w1 < w2 ≤ 2*M`, with either the
assertions compiled out or `w2 < 2^32 - 1` and a positive subsidy, the reward for `w2` is not
larger than the reward for `w1`, and it is strictly smaller whenever `M * M ≤ 3 * base`. -/
theorem get_block_reward_penalty_decreasing (cfg : Config) (ndebug : Bool)
    (median_weight w1 w2 already_generated_coins reward version : Nat)
    (hv : version < cfg.HF_VERSION_60) (hs : shift_defined cfg version)
    (hM : effective_median cfg median_weight version < UINT32_MAX)
    (h1 : effective_median cfg median_weight version < w1) (h12 : w1 < w2)
    (h2 : w2 ≤ 2 * effective_median cfg median_weight version)
    (ha : ndebug = true ∨
      (w2 < UINT32_MAX ∧ 0 < base cfg already_generated_coins version)) :
    ∃ r1 r2,
      get_block_reward cfg ndebug median_weight w1 already_generated_coins reward version
        = some (true, r1) ∧
      get_block_reward cfg ndebug median_weight w2 already_generated_coins reward version
        = some (true, r2) ∧
      r2 ≤ r1 ∧
      (effective_median cfg median_weight version * effective_median cfg median_weight version
          ≤ 3 * base cfg already_generated_coins version → r2 < r1) :=
  ⟨_, _,
    get_block_reward_penalty cfg ndebug median_weight w1 already_generated_coins reward version
      hv hs hM h1 (by omega) (ha.imp id fun h => ⟨by omega, h.2⟩),
    get_block_reward_penalty cfg ndebug median_weight w2 already_generated_coins reward version
      hv hs hM (by omega) h2 ha,
    penalized_subsidy_mono h1 h12 h2, penalized_subsidy_strict h1 h12 h2⟩

theorem get_block_reward_penalty_decreasing_witness :
    (7 < sampleConfig.HF_VERSION_60 ∧ shift_defined sampleConfig 7 ∧
      effective_median sampleConfig 0 7 < UINT32_MAX ∧
      effective_median sampleConfig 0 7 < 300001 ∧ 300001 < 300002 ∧
      300002 ≤ 2 * effective_median sampleConfig 0 7 ∧
      ((false = true) ∨ (300002 < UINT32_MAX ∧ 0 < base sampleConfig 0 7))) ∧
    ∃ r1 r2,
      get_block_reward sampleConfig false 0 300001 0 11 7 = some (true, r1) ∧
      get_block_reward sampleConfig false 0 300002 0 11 7 = some (true, r2) ∧
      r2 ≤ r1 ∧
      (effective_median sampleConfig 0 7 * effective_median sampleConfig 0 7
          ≤ 3 * base sampleConfig 0 7 → r2 < r1) :=
  ⟨by decide,
    get_block_reward_penalty_decreasing sampleConfig false 0 300001 300002 0 11 7 (by decide)
      (by decide) (by decide) (by decide) (by decide) (by decide) (by decide)⟩

/-- C5 fails as stated.  With a median weight of 2000000, all coins generated and version 7,
the block weights 2000001 and 2000002 both lie in the penalty zone and both earn 599999999999:
the reward does not strictly decrease.  And with the assertions compiled in, the weights
`2^32 - 1` and `2^32` over the effective median `2^32 - 2` return nothing. -/
theorem get_block_reward_penalty_decreasing_fails :
    ((7 < sampleConfig.HF_VERSION_60 ∧ effective_median sampleConfig 2000000 7 < UINT32_MAX ∧
        effective_median sampleConfig 2000000 7 < 2000001 ∧ 2000001 < 2000002 ∧
        2000002 ≤ 2 * effective_median sampleConfig 2000000 7) ∧
      ∀ ndebug,
        get_block_reward sampleConfig ndebug 2000000 2000001 18446744073709551615 11 7
          = some (true, 599999999999) ∧
        get_block_reward sampleConfig ndebug 2000000 2000002 18446744073709551615 11 7
          = some (true, 599999999999)) ∧
    ((effective_median sampleConfig 4294967294 7 < UINT32_MAX ∧
        effective_median sampleConfig 4294967294 7 < 4294967295 ∧ 4294967295 < 4294967296 ∧
        4294967296 ≤ 2 * effective_median sampleConfig 4294967294 7) ∧
      get_block_reward sampleConfig false 4294967294 4294967295 5 11 7 = none ∧
      get_block_reward sampleConfig false 4294967294 4294967296 5 11 7 = none) := by
  refine ⟨⟨by decide, ?_⟩, by decide, by decide, by decide⟩
  intro ndebug
  cases ndebug <;> exact ⟨by decide, by decide⟩

/-- C6, as amended: for every version below `HF_VERSION_60` and every input of the penalty
zone (`M < w ≤ 2*M`, `M < 2^32 - 1`), with either the assertions compiled out or
`w < 2^32 - 1` and a positive subsidy, the reward returned by `get_block_reward` is
`base * (2*M - w) * w / M / M` in unbounded integers with the two divisions rounding down, and
that is `base * (2*M - w) * w / M^2` rounded down. -/
theorem get_block_reward_penalty_formula (cfg : Config) (ndebug : Bool)
    (median_weight current_block_weight already_generated_coins reward version : Nat)
    (hv : version < cfg.HF_VERSION_60) (hs : shift_defined cfg version)
    (hM : effective_median cfg median_weight version < UINT32_MAX)
    (h1 : effective_median cfg median_weight version < current_block_weight)
    (h2 : current_block_weight ≤ 2 * effective_median cfg median_weight version)
    (ha : ndebug = true ∨
      (current_block_weight < UINT32_MAX ∧ 0 < base cfg already_generated_coins version)) :
    get_block_reward cfg ndebug median_weight current_block_weight already_generated_coins
        reward version
      = some (true,
          base cfg already_generated_coins version
            * (2 * effective_median cfg median_weight version - current_block_weight)
            * current_block_weight
            / effective_median cfg median_weight version
            / effective_median cfg median_weight version) ∧
    base cfg already_generated_coins version
        * (2 * effective_median cfg median_weight version - current_block_weight)
        * current_block_weight
        / effective_median cfg median_weight version
        / effective_median cfg median_weight version
      = base cfg already_generated_coins version
        * (2 * effective_median cfg median_weight version - current_block_weight)
        * current_block_weight
        / effective_median cfg median_weight version ^ 2 := by
  refine ⟨?_, ?_⟩
  · rw [get_block_reward_penalty cfg ndebug median_weight current_block_weight
      already_generated_coins reward version hv hs hM h1 h2 ha]
    unfold penalized_subsidy
    rw [Nat.mul_assoc]
  · rw [Nat.div_div_eq_div_mul, sq]

theorem get_block_reward_penalty_formula_witness :
    (7 < sampleConfig.HF_VERSION_60 ∧ shift_defined sampleConfig 7 ∧
      effective_median sampleConfig 0 7 < UINT32_MAX ∧
      effective_median sampleConfig 0 7 < 450000 ∧
      450000 ≤ 2 * effective_median sampleConfig 0 7 ∧
      ((false = true) ∨ (450000 < UINT32_MAX ∧ 0 < base sampleConfig 5 7))) ∧
    (get_block_reward sampleConfig false 0 450000 5 11 7
        = some (true,
            base sampleConfig 5 7 * (2 * effective_median sampleConfig 0 7 - 450000) * 450000
              / effective_median sampleConfig 0 7 / effective_median sampleConfig 0 7) ∧
      base sampleConfig 5 7 * (2 * effective_median sampleConfig 0 7 - 450000) * 450000
          / effective_median sampleConfig 0 7 / effective_median sampleConfig 0 7
        = base sampleConfig 5 7 * (2 * effective_median sampleConfig 0 7 - 450000) * 450000
          / effective_median sampleConfig 0 7 ^ 2) :=
  ⟨by decide,
    get_block_reward_penalty_formula sampleConfig false 0 450000 5 11 7 (by decide) (by decide)
      (by decide) (by decide) (by decide) (by decide)⟩

/-- C6 fails as stated.  With the assertions compiled in, the effective median
`2^32 - 2 < 2^32 - 1` and the block weight `2^32 + 1` of the penalty zone stop at
`assert(current_block_weight < UINT32_MAX)`: no reward is returned, while without the
assertions the reward of the formula is returned. -/
theorem get_block_reward_penalty_formula_fails :
    (7 < sampleConfig.HF_VERSION_60 ∧
      effective_median sampleConfig 4294967294 7 < UINT32_MAX ∧
      effective_median sampleConfig 4294967294 7 < 4294967297 ∧
      4294967297 ≤ 2 * effective_median sampleConfig 4294967294 7) ∧
    get_block_reward sampleConfig false 4294967294 4294967297 7 11 7 = none ∧
    get_block_reward sampleConfig true 4294967294 4294967297 7 11 7
      = some (true, base sampleConfig 7 7 * (2 * 4294967294 - 4294967297) * 4294967297
          / 4294967294 / 4294967294) := by
  refine ⟨by decide, by decide, by decide⟩

/-! ## Rounding to 53 bits -/

theorem dropped_bits_aux_le (fuel : Nat) :
    ∀ n k : Nat, n < 2 ^ (53 + k) → dropped_bits_aux fuel n ≤ k := by
  induction fuel with
  | zero => intro n k _; exact Nat.zero_le _
  | succ fuel ih =>
    intro n k h
    unfold dropped_bits_aux
    split
    · exact Nat.zero_le _
    · rename_i hn
      cases k with
      | zero => exact absurd h hn
      | succ k =>
        have h2 : n / 2 < 2 ^ (53 + k) := by
          rw [Nat.div_lt_iff_lt_mul (by decide)]
          rw [← Nat.add_assoc, Nat.pow_succ] at h
          exact h
        exact Nat.succ_le_succ (ih _ _ h2)

theorem dropped_bits_aux_lower (fuel : Nat) :
    ∀ n : Nat, dropped_bits_aux fuel n ≠ 0 → 2 ^ dropped_bits_aux fuel n * 2 ^ 52 ≤ n := by
  induction fuel with
  | zero => intro n h; exact absurd rfl h
  | succ fuel ih =>
    intro n h
    unfold dropped_bits_aux at h ⊢
    split at h
    · exact absurd rfl h
    · rename_i hn
      rw [if_neg hn]
      by_cases h0 : dropped_bits_aux fuel (n / 2) = 0
      · rw [h0]
        norm_num only at hn ⊢
        omega
      · have h1 := ih _ h0
        rw [Nat.pow_succ]
        generalize 2 ^ dropped_bits_aux fuel (n / 2) = P at *
        omega

theorem dropped_bits_aux_upper (fuel : Nat) :
    ∀ n : Nat, n < 2 ^ fuel * 2 ^ 53 → n < 2 ^ dropped_bits_aux fuel n * 2 ^ 53 := by
  induction fuel with
  | zero => intro n h; exact h
  | succ fuel ih =>
    intro n h
    unfold dropped_bits_aux
    split
    · rename_i hn
      rw [Nat.pow_zero, Nat.one_mul]
      exact hn
    · have h2 : n / 2 < 2 ^ fuel * 2 ^ 53 := by
        rw [Nat.div_lt_iff_lt_mul (by decide)]
        rw [Nat.pow_succ] at h
        omega
      have h3 := ih _ h2
      rw [Nat.pow_succ]
      generalize 2 ^ dropped_bits_aux fuel (n / 2) = P at *
      omega

theorem dropped_bits_le {n k : Nat} (h : n < 2 ^ (53 + k)) : dropped_bits n ≤ k :=
  dropped_bits_aux_le n n k h

theorem dropped_bits_lower {n : Nat} (h : dropped_bits n ≠ 0) :
    2 ^ dropped_bits n * 2 ^ 52 ≤ n :=
  dropped_bits_aux_lower n n h

/-- What is kept after `dropped_bits n` bits are dropped fits in 53 bits. -/
theorem dropped_bits_upper (n : Nat) : n / 2 ^ dropped_bits n < 2 ^ 53 := by
  rw [Nat.div_lt_iff_lt_mul (Nat.two_pow_pos _), Nat.mul_comm]
  apply dropped_bits_aux_upper n n
  exact lt_of_lt_of_le (Nat.lt_two_pow n) (Nat.le_mul_of_pos_right _ (Nat.two_pow_pos 53))

/-- The result of the rounding is a multiple of `2 ^ dropped_bits n` next to `n`: it is the
multiple just below `n` or the one after it, and it is at most half a unit away from `n`. -/
theorem round_nearest_even_cases (n : Nat) :
    (round_nearest_even n = n / 2 ^ dropped_bits n * 2 ^ dropped_bits n ∧
        2 * (n % 2 ^ dropped_bits n) ≤ 2 ^ dropped_bits n) ∨
      (round_nearest_even n = (n / 2 ^ dropped_bits n + 1) * 2 ^ dropped_bits n ∧
        2 ^ dropped_bits n ≤ 2 * (n % 2 ^ dropped_bits n)) := by
  unfold round_nearest_even
  simp only
  split
  · rename_i h
    right
    refine ⟨rfl, ?_⟩
    rcases h with h | h
    · omega
    · omega
  · rename_i h
    left
    refine ⟨rfl, ?_⟩
    by_contra hc
    exact h (Or.inl (by omega))

theorem round_nearest_even_of_small {n : Nat} (h : n < 2 ^ 53) : round_nearest_even n = n := by
  have hs : dropped_bits n = 0 := Nat.le_zero.mp (dropped_bits_le (k := 0) h)
  rcases round_nearest_even_cases n with ⟨h1, _⟩ | ⟨_, h2⟩
  · rw [h1, hs]
    simp
  · rw [hs] at h2
    simp [Nat.mod_one] at h2

/-- The facts about `round_nearest_even n` in linear form: with `P = 2 ^ dropped_bits n` and
`X` the multiple of `P` just below `n`, the result is `X` or `X + P`, whichever is nearer. -/
theorem round_nearest_even_linear (n : Nat) :
    ∃ X, X = n / 2 ^ dropped_bits n * 2 ^ dropped_bits n ∧
      X + n % 2 ^ dropped_bits n = n ∧ n % 2 ^ dropped_bits n < 2 ^ dropped_bits n ∧
      ((round_nearest_even n = X ∧ 2 * (n % 2 ^ dropped_bits n) ≤ 2 ^ dropped_bits n) ∨
        (round_nearest_even n = X + 2 ^ dropped_bits n ∧
          2 ^ dropped_bits n ≤ 2 * (n % 2 ^ dropped_bits n))) := by
  refine ⟨_, rfl, ?_, Nat.mod_lt n (Nat.two_pow_pos _), ?_⟩
  · rw [Nat.mul_comm]
    exact Nat.div_add_mod n _
  · rcases round_nearest_even_cases n with ⟨h1, h2⟩ | ⟨h1, h2⟩
    · exact Or.inl ⟨h1, h2⟩
    · refine Or.inr ⟨?_, h2⟩
      rw [h1, Nat.add_mul, Nat.one_mul]

/-- Rounding moves a number up by at most the fraction `2^-53` of it. -/
theorem round_nearest_even_le (n : Nat) :
    9007199254740992 * round_nearest_even n ≤ 9007199254740993 * n := by
  obtain ⟨X, -, hX, hmod, hcase⟩ := round_nearest_even_linear n
  by_cases hs : dropped_bits n = 0
  · rw [hs] at hX hmod hcase
    simp only [Nat.pow_zero] at hX hmod hcase
    omega
  · have hlow := dropped_bits_lower hs
    generalize 2 ^ dropped_bits n = P at *
    omega

/-- Rounding moves a number down by at most the fraction `2^-53` of it. -/
theorem round_nearest_even_ge (n : Nat) :
    9007199254740991 * n ≤ 9007199254740992 * round_nearest_even n := by
  obtain ⟨X, -, hX, hmod, hcase⟩ := round_nearest_even_linear n
  by_cases hs : dropped_bits n = 0
  · rw [hs] at hX hmod hcase
    simp only [Nat.pow_zero] at hX hmod hcase
    omega
  · have hlow := dropped_bits_lower hs
    generalize 2 ^ dropped_bits n = P at *
    omega

/-- A multiple of `2 ^ k` that is not above `n` is not above the rounding of `n`, when the
rounding drops at most `k` bits: such multiples are representable. -/
theorem le_round_nearest_even {a k n : Nat} (hk : dropped_bits n ≤ k) (h : a * 2 ^ k ≤ n) :
    a * 2 ^ k ≤ round_nearest_even n := by
  obtain ⟨X, hXdef, hX, hmod, hcase⟩ := round_nearest_even_linear n
  have hsplit : a * 2 ^ k = a * 2 ^ (k - dropped_bits n) * 2 ^ dropped_bits n := by
    rw [Nat.mul_assoc, ← Nat.pow_add, Nat.sub_add_cancel hk]
  have hle : a * 2 ^ k ≤ X := by
    rw [hXdef, hsplit]
    apply Nat.mul_le_mul_right
    rw [Nat.le_div_iff_mul_le (Nat.two_pow_pos _), ← hsplit]
    exact h
  rcases hcase with ⟨h1, -⟩ | ⟨h1, -⟩
  · omega
  · omega

/-- A multiple of `2 ^ k` that is not below `n` is not below the rounding of `n`, when the
rounding drops at most `k` bits. -/
theorem round_nearest_even_le_multiple {a k n : Nat} (hk : dropped_bits n ≤ k)
    (h : n ≤ a * 2 ^ k) : round_nearest_even n ≤ a * 2 ^ k := by
  obtain ⟨X, hXdef, hX, hmod, hcase⟩ := round_nearest_even_linear n
  generalize dropped_bits n = s at *
  have hsplit : a * 2 ^ k = a * 2 ^ (k - s) * 2 ^ s := by
    rw [Nat.mul_assoc, ← Nat.pow_add, Nat.sub_add_cancel hk]
  rcases hcase with ⟨h1, -⟩ | ⟨h1, h2⟩
  · omega
  · have hP := Nat.two_pow_pos s
    have hpos : 0 < n % 2 ^ s := by omega
    have hne : n ≠ a * 2 ^ k := by
      intro heq
      rw [heq, hsplit, Nat.mul_mod_left] at hpos
      exact lt_irrefl _ hpos
    have hlt : n / 2 ^ s < a * 2 ^ (k - s) := by
      rw [Nat.div_lt_iff_lt_mul hP, ← hsplit]
      omega
    have h3 : (n / 2 ^ s + 1) * 2 ^ s ≤ a * 2 ^ (k - s) * 2 ^ s :=
      Nat.mul_le_mul_right _ hlt
    rw [Nat.add_mul, Nat.one_mul, ← hXdef, ← hsplit] at h3
    omega

/-! ## The split of the reward -/

theorem funding_old_eq (r : Nat) :
    (fund_from_block r false).2.2
      = round_nearest_even (round_nearest_even r * 3602879701896397) / 2 ^ 55 := rfl

theorem funding_new_eq (r : Nat) :
    (fund_from_block r true).2.2
      = round_nearest_even (round_nearest_even r * 6305039478318694) / 2 ^ 53 := rfl

theorem miner_reward_eq (r : Nat) (fork : Bool) :
    (fund_from_block r fork).2.1 = sub64 r (fund_from_block r fork).2.2 := rfl

/-- The funding never exceeds the reward, for either rate. -/
theorem funding_le (r : Nat) (fork : Bool) : (fund_from_block r fork).2.2 ≤ r := by
  have h1 := round_nearest_even_le r
  cases fork
  · rw [funding_old_eq]
    have h2 := round_nearest_even_le (round_nearest_even r * 3602879701896397)
    apply Nat.div_le_of_le_mul
    norm_num only
    omega
  · rw [funding_new_eq]
    have h2 := round_nearest_even_le (round_nearest_even r * 6305039478318694)
    apply Nat.div_le_of_le_mul
    norm_num only
    omega

/-- C7: for every reward `r` up to `MONEY_SUPPLY` (a 64-bit constant) and both values of
`fork`, `fund_from_block` yields a funding not above `r` and a miner reward with
`miner_reward + funding = r` in unbounded integers: the 64-bit subtraction does not wrap. -/
theorem fund_from_block_sum (cfg : Config) (r : Nat) (fork : Bool)
    (hsupply : cfg.MONEY_SUPPLY < U64) (hr : r ≤ cfg.MONEY_SUPPLY) :
    (fund_from_block r fork).2.2 ≤ r ∧
      (fund_from_block r fork).2.1 + (fund_from_block r fork).2.2 = r := by
  have hle := funding_le r fork
  refine ⟨hle, ?_⟩
  rw [miner_reward_eq, sub64_of_le hle (lt_of_le_of_lt hr hsupply)]
  omega

theorem fund_from_block_sum_witness :
    (sampleConfig.MONEY_SUPPLY < U64 ∧ 18446744073709551615 ≤ sampleConfig.MONEY_SUPPLY) ∧
      ((fund_from_block 18446744073709551615 true).2.2 ≤ 18446744073709551615 ∧
        (fund_from_block 18446744073709551615 true).2.1
            + (fund_from_block 18446744073709551615 true).2.2
          = 18446744073709551615) :=
  ⟨by decide,
    fund_from_block_sum sampleConfig 18446744073709551615 true (by decide) (by decide)⟩

/-- With the rate 0.1 and a reward below `2^52` the funding is the tenth, rounded down. -/
theorem funding_old_exact {r : Nat} (hr : r < 2 ^ 52) :
    (fund_from_block r false).2.2 = r / 10 := by
  rw [funding_old_eq, round_nearest_even_of_small (lt_trans hr (by norm_num))]
  norm_num only at hr
  have hup := round_nearest_even_le (r * 3602879701896397)
  have hk : dropped_bits (r * 3602879701896397) ≤ 55 :=
    dropped_bits_le (by norm_num only; omega)
  have hlow : r / 10 * 2 ^ 55 ≤ round_nearest_even (r * 3602879701896397) :=
    le_round_nearest_even hk (by norm_num only; omega)
  apply Nat.le_antisymm
  · apply Nat.le_of_lt_succ
    rw [Nat.div_lt_iff_lt_mul (Nat.two_pow_pos 55)]
    norm_num only
    omega
  · rw [Nat.le_div_iff_mul_le (Nat.two_pow_pos 55)]
    exact hlow

/-- With the rate 0.7 and a reward below `2^51` the funding is seven tenths of the reward
rounded down, or one unit less. -/
theorem funding_new_near {r : Nat} (hr : r < 2 ^ 51) :
    (fund_from_block r true).2.2 = 7 * r / 10 ∨
      (fund_from_block r true).2.2 + 1 = 7 * r / 10 := by
  rw [funding_new_eq, round_nearest_even_of_small (lt_trans hr (by norm_num))]
  norm_num only at hr
  have hup := round_nearest_even_le (r * 6305039478318694)
  have hk : dropped_bits (r * 6305039478318694) ≤ 53 :=
    dropped_bits_le (by norm_num only; omega)
  have hlow : (7 * r / 10 - 1) * 2 ^ 53 ≤ round_nearest_even (r * 6305039478318694) :=
    le_round_nearest_even hk (by norm_num only; omega)
  have h1 : 7 * r / 10 - 1 ≤ round_nearest_even (r * 6305039478318694) / 2 ^ 53 := by
    rw [Nat.le_div_iff_mul_le (Nat.two_pow_pos 53)]
    exact hlow
  have h2 : round_nearest_even (r * 6305039478318694) / 2 ^ 53 < 7 * r / 10 + 1 := by
    rw [Nat.div_lt_iff_lt_mul (Nat.two_pow_pos 53)]
    norm_num only
    omega
  omega

/-- C8, as amended: the funding is the truncated binary64 product of the reward and the
rate.  With `fork` false it equals `floor(r / 10)` for every reward `r < 2^52`; with `fork`
true it is `floor(7 * r / 10)` or one unit less for every reward `r < 2^51`. -/
theorem fund_from_block_rate (r : Nat) :
    (r < 2 ^ 52 → (fund_from_block r false).2.2 = r / 10) ∧
      (r < 2 ^ 51 →
        ((fund_from_block r true).2.2 = 7 * r / 10 ∨
          (fund_from_block r true).2.2 + 1 = 7 * r / 10)) :=
  ⟨funding_old_exact, funding_new_near⟩

theorem fund_from_block_rate_witness :
    (5000000000000 < 2 ^ 52 ∧ 5000000000000 < 2 ^ 51) ∧
      (fund_from_block 5000000000000 false).2.2 = 5000000000000 / 10 ∧
      ((fund_from_block 5000000000000 true).2.2 = 7 * 5000000000000 / 10 ∨
        (fund_from_block 5000000000000 true).2.2 + 1 = 7 * 5000000000000 / 10) :=
  ⟨by decide,
    (fund_from_block_rate 5000000000000).1 (by decide),
    (fund_from_block_rate 5000000000000).2 (by decide)⟩

/-- C8 fails as stated.  With `fork` true the reward 90 gives the funding 62, while
`floor(90 * 7 / 10) = 63`: the binary64 product `90 * 0.7` is `62.99999999999999`.  With `fork`
false the reward 6755468929874069 gives the funding 675546892987407, one more than the
tenth rounded down. -/
theorem fund_from_block_rate_fails :
    ((fund_from_block 90 true).2.2 = 62 ∧ 90 * 7 / 10 = 63) ∧
      ((fund_from_block 6755468929874069 false).2.2 = 675546892987407 ∧
        6755468929874069 / 10 = 675546892987406) := by
  refine ⟨⟨by decide, by decide⟩, by decide, by decide⟩

/-- C9: `fund_from_block(1000000, fork = false)` yields the funding 100000 and the miner
reward 900000, and `fund_from_block(1000000, fork = true)` yields the funding 700000 and the
miner reward 300000. -/
theorem fund_from_block_example :
    fund_from_block 1000000 false = (true, 900000, 100000) ∧
      fund_from_block 1000000 true = (true, 300000, 700000) := by
  constructor
  · decide
  · decide

/-- C10: `check_block_funding` returns `true` if and only if the pair of the actual miner
reward and the actual funding is the pair that `fund_from_block` produces for the real reward
and the same `fork`; hence the produced pair with either component moved by one unit up or
down (in 64-bit arithmetic) is rejected. -/
theorem check_block_funding_iff (actual_miner_reward actual_funding real_reward : Nat)
    (fork : Bool) :
    (check_block_funding actual_miner_reward actual_funding real_reward fork = true ↔
        (actual_miner_reward, actual_funding)
          = ((fund_from_block real_reward fork).2.1, (fund_from_block real_reward fork).2.2)) ∧
      check_block_funding (((fund_from_block real_reward fork).2.1 + 1) % U64)
        (fund_from_block real_reward fork).2.2 real_reward fork = false ∧
      check_block_funding (((fund_from_block real_reward fork).2.1 + U64 - 1) % U64)
        (fund_from_block real_reward fork).2.2 real_reward fork = false ∧
      check_block_funding (fund_from_block real_reward fork).2.1
        (((fund_from_block real_reward fork).2.2 + 1) % U64) real_reward fork = false ∧
      check_block_funding (fund_from_block real_reward fork).2.1
        (((fund_from_block real_reward fork).2.2 + U64 - 1) % U64) real_reward fork = false := by
  have key : ∀ a f : Nat, check_block_funding a f real_reward fork = true ↔
      (a, f) = ((fund_from_block real_reward fork).2.1, (fund_from_block real_reward fork).2.2) := by
    intro a f
    unfold check_block_funding
    simp only [Bool.and_eq_true, beq_iff_eq, Prod.mk.injEq]
  have up : ∀ m : Nat, (m + 1) % U64 ≠ m := by
    intro m
    rw [U64_eq]
    omega
  have down : ∀ m : Nat, (m + U64 - 1) % U64 ≠ m := by
    intro m
    rw [U64_eq]
    omega
  refine ⟨key _ _, ?_, ?_, ?_, ?_⟩
  · rw [← Bool.not_eq_true, key]
    intro h
    exact up _ (Prod.mk.inj h).1
  · rw [← Bool.not_eq_true, key]
    intro h
    exact down _ (Prod.mk.inj h).1
  · rw [← Bool.not_eq_true, key]
    intro h
    exact up _ (Prod.mk.inj h).2
  · rw [← Bool.not_eq_true, key]
    intro h
    exact down _ (Prod.mk.inj h).2

/-! ## The funding ledger -/

/-- C11: for every height `h`, `funding_enabled(h)` is true exactly when `h` is at or above the
activation height of the network, 1686050 for MAINNET, 15 for STAGENET, 2950 for TESTNET and 10
for FAKECHAIN, and it is false at every height for any other network type; hence for each of
the four it is false below the threshold and true at every height from the threshold on. -/
theorem funding_enabled_threshold (h : Nat) :
    (funding_enabled network_type.MAINNET h = true ↔ 1686050 ≤ h) ∧
      (funding_enabled network_type.STAGENET h = true ↔ 15 ≤ h) ∧
      (funding_enabled network_type.TESTNET h = true ↔ 2950 ≤ h) ∧
      (funding_enabled network_type.FAKECHAIN h = true ↔ 10 ≤ h) ∧
      funding_enabled network_type.UNDEFINED h = false ∧
      (∀ t h1 h2, h1 ≤ h2 → funding_enabled t h1 = true → funding_enabled t h2 = true) := by
  refine ⟨?_, ?_, ?_, ?_, rfl, ?_⟩
  · simp [funding_enabled, MONERO_ENABLE_FUNDING_HEIGHT_MAINNET]
  · simp [funding_enabled, MONERO_ENABLE_FUNDING_HEIGHT_STAGENET]
  · simp [funding_enabled, MONERO_ENABLE_FUNDING_HEIGHT_TESTNET]
  · simp [funding_enabled, MONERO_ENABLE_FUNDING_HEIGHT_REGTESTNET]
  · intro t h1 h2 h12
    cases t <;>
      simp [funding_enabled, MONERO_ENABLE_FUNDING_HEIGHT_MAINNET,
        MONERO_ENABLE_FUNDING_HEIGHT_STAGENET, MONERO_ENABLE_FUNDING_HEIGHT_TESTNET,
        MONERO_ENABLE_FUNDING_HEIGHT_REGTESTNET] <;>
      omega

theorem length_sub_one_lt {α : Type} {l : List α} (h : l ≠ []) (hlen : l.length < U64) :
    sub64 l.length 1 = l.length - 1 ∧ l.length - 1 < l.length := by
  have hpos : 0 < l.length := List.length_pos.mpr h
  have h1 : (1 : Nat) % U64 = 1 := by decide
  unfold sub64
  rw [h1]
  rw [U64_eq] at *
  omega

/-- The result of `get_funding_from_miner_tx` on a transaction whose last output exists and
targets a one-time key. -/
theorem get_funding_from_miner_tx_eq {PublicKey AccountKeys : Type}
    (get_tx_pub_key_from_extra : List Nat → PublicKey)
    (is_out_to_acc : AccountKeys → PublicKey → PublicKey → List PublicKey → Nat → Bool)
    (m_account_keys : AccountKeys) (miner_tx : transaction PublicKey) (funding_amount : Nat)
    (last : tx_out PublicKey) (key : PublicKey)
    (hlen : miner_tx.vout.length < U64)
    (hlast : miner_tx.vout.getLast? = some last)
    (hkey : last.target = txout_target_v.txout_to_key key) :
    get_funding_from_miner_tx get_tx_pub_key_from_extra is_out_to_acc m_account_keys miner_tx
        funding_amount
      = if is_out_to_acc m_account_keys key (get_tx_pub_key_from_extra miner_tx.extra) []
            (miner_tx.vout.length - 1) = true
        then some (true, last.amount) else some (false, funding_amount) := by
  have hne : miner_tx.vout ≠ [] := by
    intro h
    rw [h] at hlast
    simp at hlast
  obtain ⟨hidx, hlt⟩ := length_sub_one_lt hne hlen
  have hget : miner_tx.vout[miner_tx.vout.length - 1]? = some last := by
    rw [← hlast, List.getLast?_eq_getElem?]
  unfold get_funding_from_miner_tx
  simp only [hidx, hget, hkey]
  cases is_out_to_acc m_account_keys key (get_tx_pub_key_from_extra miner_tx.extra) []
      (miner_tx.vout.length - 1) <;> simp

/-- C12: for every miner transaction with at least one output whose last output targets a
one-time key, `get_funding_from_miner_tx` returns `true` with `funding_amount` set to the amount
of the last output if and only if `is_out_to_acc` succeeds on the ledger keys, the key of the
last output, the transaction public key recovered from `extra`, no additional keys and the
output index `vout.size() - 1`; otherwise it returns `false` and leaves `funding_amount` as it
was.  Nothing but `extra`, the last output and the number of outputs is examined: two
transactions that agree on these give the same result. -/
theorem get_funding_from_miner_tx_spec {PublicKey AccountKeys : Type}
    (get_tx_pub_key_from_extra : List Nat → PublicKey)
    (is_out_to_acc : AccountKeys → PublicKey → PublicKey → List PublicKey → Nat → Bool)
    (m_account_keys : AccountKeys) (miner_tx : transaction PublicKey) (funding_amount : Nat)
    (last : tx_out PublicKey) (key : PublicKey)
    (hlen : miner_tx.vout.length < U64)
    (hlast : miner_tx.vout.getLast? = some last)
    (hkey : last.target = txout_target_v.txout_to_key key) :
    (get_funding_from_miner_tx get_tx_pub_key_from_extra is_out_to_acc m_account_keys miner_tx
          funding_amount = some (true, last.amount) ↔
        is_out_to_acc m_account_keys key (get_tx_pub_key_from_extra miner_tx.extra) []
          (miner_tx.vout.length - 1) = true) ∧
      (get_funding_from_miner_tx get_tx_pub_key_from_extra is_out_to_acc m_account_keys miner_tx
          funding_amount = some (false, funding_amount) ↔
        is_out_to_acc m_account_keys key (get_tx_pub_key_from_extra miner_tx.extra) []
          (miner_tx.vout.length - 1) = false) ∧
      (∀ other : transaction PublicKey, other.extra = miner_tx.extra →
        other.vout.length = miner_tx.vout.length → other.vout.getLast? = some last →
        get_funding_from_miner_tx get_tx_pub_key_from_extra is_out_to_acc m_account_keys other
            funding_amount
          = get_funding_from_miner_tx get_tx_pub_key_from_extra is_out_to_acc m_account_keys
            miner_tx funding_amount) := by
  have h := get_funding_from_miner_tx_eq get_tx_pub_key_from_extra is_out_to_acc m_account_keys
    miner_tx funding_amount last key hlen hlast hkey
  refine ⟨?_, ?_, ?_⟩
  · rw [h]
    cases is_out_to_acc m_account_keys key (get_tx_pub_key_from_extra miner_tx.extra) []
      (miner_tx.vout.length - 1) <;> simp
  · rw [h]
    cases is_out_to_acc m_account_keys key (get_tx_pub_key_from_extra miner_tx.extra) []
      (miner_tx.vout.length - 1) <;> simp
  · intro other hextra hlength hother
    rw [h, get_funding_from_miner_tx_eq get_tx_pub_key_from_extra is_out_to_acc m_account_keys
      other funding_amount last key (by rw [hlength]; exact hlen) hother hkey, hextra, hlength]

theorem get_funding_from_miner_tx_spec_witness :
    (([⟨5, txout_target_v.other⟩, ⟨9, txout_target_v.txout_to_key 18⟩] :
          List (tx_out Nat)).length < U64 ∧
      ([⟨5, txout_target_v.other⟩, ⟨9, txout_target_v.txout_to_key 18⟩] :
          List (tx_out Nat)).getLast? = some ⟨9, txout_target_v.txout_to_key 18⟩ ∧
      (⟨9, txout_target_v.txout_to_key 18⟩ : tx_out Nat).target
        = txout_target_v.txout_to_key 18) ∧
    (get_funding_from_miner_tx (fun extra => extra.sum)
        (fun (acc : Nat) key tx_pub _ index => key == acc + tx_pub + index) 10
        ⟨[7], [⟨5, txout_target_v.other⟩, ⟨9, txout_target_v.txout_to_key 18⟩]⟩ 3
      = some (true, 9) ↔
      (fun (acc : Nat) key tx_pub (_ : List Nat) index => key == acc + tx_pub + index) 10 18
        ((fun extra => extra.sum) [7]) [] (2 - 1) = true) :=
  ⟨by decide,
    (get_funding_from_miner_tx_spec (fun extra => extra.sum)
      (fun (acc : Nat) key tx_pub _ index => key == acc + tx_pub + index) 10
      ⟨[7], [⟨5, txout_target_v.other⟩, ⟨9, txout_target_v.txout_to_key 18⟩]⟩ 3
      ⟨9, txout_target_v.txout_to_key 18⟩ 18 (by decide) (by decide) (by decide)).1⟩

/-- The return value of `get_funding_address_and_key` for given strings of the network. -/
theorem get_funding_address_and_key_true_iff {Address : Type} (env : FundingEnv Address)
    (t : network_type) (keys : account_keys Address) (addr key : String)
    (hs : funding_strings env t = some (addr, key)) :
    (get_funding_address_and_key env t keys).1 = true ↔
      (env.get_account_address_from_str t addr).isSome = true ∧
        ∃ data, env.parse_hexstr_to_binbuff key = some data ∧
          data.length = env.sizeof_crypto_hash := by
  unfold get_funding_address_and_key
  rw [hs]
  simp only
  cases env.get_account_address_from_str t addr with
  | none => simp
  | some a =>
    simp only [Option.isSome_some, true_and]
    cases env.parse_hexstr_to_binbuff key with
    | none => simp
    | some data =>
      simp only [Option.some.injEq, exists_eq_left']
      split <;> simp_all

theorem init_fst {Address : Type} (env : FundingEnv Address) (self : BlockFunding Address)
    (t : network_type) :
    (BlockFunding.init env self t).1 = (get_funding_address_and_key env t self.m_account_keys).1 := by
  unfold BlockFunding.init
  simp only
  cases (get_funding_address_and_key env t self.m_account_keys).1 <;> simp

/-- C14: `BlockFunding::init` returns `false` for every network type other than MAINNET,
FAKECHAIN, STAGENET and TESTNET; for each of the four it returns `true` if and only if the
compiled-in funding address of the network parses and the compiled-in view secret key string
is valid hex that decodes to exactly 32 bytes (`sizeof(crypto::hash)`), FAKECHAIN using the
address and key strings of MAINNET. -/
theorem init_true_iff {Address : Type} (env : FundingEnv Address) (self : BlockFunding Address)
    (hsize : env.sizeof_crypto_hash = 32) :
    (BlockFunding.init env self network_type.UNDEFINED).1 = false ∧
      ((BlockFunding.init env self network_type.MAINNET).1 = true ↔
        (env.get_account_address_from_str network_type.MAINNET
            env.MONERO_FUNDING_ADDR).isSome = true ∧
          ∃ data, env.parse_hexstr_to_binbuff env.MONERO_FUNDING_VIEW_SECRET_KEY = some data ∧
            data.length = 32) ∧
      ((BlockFunding.init env self network_type.FAKECHAIN).1 = true ↔
        (env.get_account_address_from_str network_type.FAKECHAIN
            env.MONERO_FUNDING_ADDR).isSome = true ∧
          ∃ data, env.parse_hexstr_to_binbuff env.MONERO_FUNDING_VIEW_SECRET_KEY = some data ∧
            data.length = 32) ∧
      ((BlockFunding.init env self network_type.STAGENET).1 = true ↔
        (env.get_account_address_from_str network_type.STAGENET
            env.stagenet_MONERO_FUNDING_ADDR).isSome = true ∧
          ∃ data,
            env.parse_hexstr_to_binbuff env.stagenet_MONERO_FUNDING_VIEW_SECRET_KEY
              = some data ∧
            data.length = 32) ∧
      ((BlockFunding.init env self network_type.TESTNET).1 = true ↔
        (env.get_account_address_from_str network_type.TESTNET
            env.testnet_MONERO_FUNDING_ADDR).isSome = true ∧
          ∃ data,
            env.parse_hexstr_to_binbuff env.testnet_MONERO_FUNDING_VIEW_SECRET_KEY
              = some data ∧
            data.length = 32) := by
  refine ⟨?_, ?_, ?_, ?_, ?_⟩
  · rw [init_fst]
    rfl
  · rw [init_fst, get_funding_address_and_key_true_iff env network_type.MAINNET _
      env.MONERO_FUNDING_ADDR env.MONERO_FUNDING_VIEW_SECRET_KEY rfl, hsize]
  · rw [init_fst, get_funding_address_and_key_true_iff env network_type.FAKECHAIN _
      env.MONERO_FUNDING_ADDR env.MONERO_FUNDING_VIEW_SECRET_KEY rfl, hsize]
  · rw [init_fst, get_funding_address_and_key_true_iff env network_type.STAGENET _
      env.stagenet_MONERO_FUNDING_ADDR env.stagenet_MONERO_FUNDING_VIEW_SECRET_KEY rfl, hsize]
  · rw [init_fst, get_funding_address_and_key_true_iff env network_type.TESTNET _
      env.testnet_MONERO_FUNDING_ADDR env.testnet_MONERO_FUNDING_VIEW_SECRET_KEY rfl, hsize]

theorem init_true_iff_witness :
    sampleFundingEnv.sizeof_crypto_hash = 32 ∧
      (BlockFunding.init sampleFundingEnv ⟨network_type.UNDEFINED, ⟨"", []⟩⟩
          network_type.MAINNET).1 = true ∧
      (BlockFunding.init sampleFundingEnv ⟨network_type.UNDEFINED, ⟨"", []⟩⟩
          network_type.FAKECHAIN).1 = false ∧
      (BlockFunding.init sampleFundingEnv ⟨network_type.UNDEFINED, ⟨"", []⟩⟩
          network_type.STAGENET).1 = false ∧
      (BlockFunding.init sampleFundingEnv ⟨network_type.UNDEFINED, ⟨"", []⟩⟩
          network_type.TESTNET).1 = false ∧
      (BlockFunding.init sampleFundingEnv ⟨network_type.UNDEFINED, ⟨"", []⟩⟩
          network_type.UNDEFINED).1 = false :=
  ⟨by decide, by decide, by decide, by decide, by decide,
    (init_true_iff sampleFundingEnv ⟨network_type.UNDEFINED, ⟨"", []⟩⟩ (by decide)).1⟩

/-! ## The stake reward rate -/

theorem full_stake_coins_eq (start_height cur_height : Nat) :
    full_stake_coins start_height cur_height
      = some (full_stake_cap (sub64 cur_height start_height / BLOCK_PER_YEAR)) := by
  unfold full_stake_coins full_stake_cap
  simp only
  generalize sub64 cur_height start_height / BLOCK_PER_YEAR = i
  by_cases h : i ≥ ARRAY_SIZE_FULL_STAKE_COINS_OVER_YEAR
  · rw [if_pos h]
    have h13 : 13 ≤ i := h
    rw [Nat.min_eq_right (by omega)]
    rfl
  · rw [if_neg h]
    have h13 : i < 13 := Nat.lt_of_not_le h
    rw [Nat.min_eq_left (by omega)]
    interval_cases i <;> rfl

theorem full_stake_cap_mono {i j : Nat} (h : i ≤ j) : full_stake_cap i ≤ full_stake_cap j := by
  unfold full_stake_cap
  have key : ∀ a b : Fin 13, a ≤ b →
      FULL_STAKE_COINS_OVER_YEAR.getD a.val 0 ≤ FULL_STAKE_COINS_OVER_YEAR.getD b.val 0 := by
    decide
  exact key ⟨min i 12, by omega⟩ ⟨min j 12, by omega⟩ (by
    show min i 12 ≤ min j 12
    omega)

theorem full_stake_cap_bounds (i : Nat) :
    300000 ≤ full_stake_cap i ∧ full_stake_cap i ≤ 10000000 := by
  have h0 : full_stake_cap 0 = 300000 := rfl
  have h12 : full_stake_cap 12 = 10000000 := rfl
  have h13 : full_stake_cap i = full_stake_cap (min i 12) := by
    unfold full_stake_cap
    rw [Nat.min_assoc, Nat.min_self]
  constructor
  · rw [← h0]
    exact full_stake_cap_mono (Nat.zero_le _)
  · rw [h13, ← h12]
    exact full_stake_cap_mono (Nat.min_le_right _ _)

/-- C13: for every staked amount below `COIN`, whatever the unlock time, the heights, the time
and the network type, `get_pos_block_reward_rate` returns exactly `0.0`. -/
theorem get_pos_block_reward_rate_small_stake (cfg : StakeConfig)
    (unlock_time block_height block_time staked_coins cur_height : Nat) (type : network_type)
    (hs : staked_coins < cfg.COIN) :
    get_pos_block_reward_rate cfg unlock_time block_height block_time staked_coins cur_height
      type = some Double.zero := by
  unfold get_pos_block_reward_rate
  simp only
  rw [if_neg (by omega), if_pos (Nat.div_eq_of_lt hs)]

theorem get_pos_block_reward_rate_small_stake_witness :
    999999999999 < sampleStakeConfig.COIN ∧
      get_pos_block_reward_rate sampleStakeConfig 2300000 2100000 0 999999999999 2100000
        network_type.MAINNET = some Double.zero :=
  ⟨by decide,
    get_pos_block_reward_rate_small_stake sampleStakeConfig 2300000 2100000 0 999999999999
      2100000 network_type.MAINNET (by decide)⟩

/-- C16: for every input with `cur_height` below the activation height of the stake program,
`STAKE_STATR_HEIGHT_TESTNET` when the network type is TESTNET and `STAKE_START_HEIGHT` for every
other network type, `get_pos_block_reward_rate` returns exactly `0.0`, whatever the staked
amount and the lock. -/
theorem get_pos_block_reward_rate_before_start (cfg : StakeConfig)
    (unlock_time block_height block_time staked_coins cur_height : Nat) (type : network_type)
    (hcoin : 0 < cfg.COIN)
    (hh : cur_height <
      (if type = network_type.TESTNET then cfg.STAKE_STATR_HEIGHT_TESTNET
        else cfg.STAKE_START_HEIGHT)) :
    get_pos_block_reward_rate cfg unlock_time block_height block_time staked_coins cur_height
      type = some Double.zero := by
  unfold get_pos_block_reward_rate
  simp only
  rw [if_neg (by omega)]
  split
  · rfl
  · rw [if_pos (by unfold stake_start_height; exact hh)]

theorem get_pos_block_reward_rate_before_start_witness :
    (0 < sampleStakeConfig.COIN ∧
      1999999 <
        (if network_type.MAINNET = network_type.TESTNET
          then sampleStakeConfig.STAKE_STATR_HEIGHT_TESTNET
          else sampleStakeConfig.STAKE_START_HEIGHT)) ∧
      get_pos_block_reward_rate sampleStakeConfig 2300000 1900000 0 5000000000000000 1999999
        network_type.MAINNET = some Double.zero :=
  ⟨by decide,
    get_pos_block_reward_rate_before_start sampleStakeConfig 2300000 1900000 0 5000000000000000
      1999999 network_type.MAINNET (by decide) (by decide)⟩

/-- After a `break` of the `do` block the function returns `0.0`, whenever the division by
`COIN` is defined. -/
theorem get_pos_block_reward_rate_of_break (cfg : StakeConfig)
    (unlock_time block_height block_time staked_coins cur_height : Nat) (type : network_type)
    (hcoin : 0 < cfg.COIN)
    (hb : lock_delta_height cfg unlock_time block_height block_time = some none) :
    get_pos_block_reward_rate cfg unlock_time block_height block_time staked_coins cur_height
      type = some Double.zero := by
  unfold get_pos_block_reward_rate
  simp only
  rw [if_neg (by omega), full_stake_coins_eq, hb]
  split
  · rfl
  · split <;> rfl

/-- With a lock of `delta_height` blocks, fewer than `MONERO_BLOCK_PER_DAY`, the function
returns `0.0`. -/
theorem get_pos_block_reward_rate_of_short (cfg : StakeConfig)
    (unlock_time block_height block_time staked_coins cur_height delta_height : Nat)
    (type : network_type) (hcoin : 0 < cfg.COIN)
    (hd : lock_delta_height cfg unlock_time block_height block_time = some (some delta_height))
    (hshort : delta_height < cfg.MONERO_BLOCK_PER_DAY) :
    get_pos_block_reward_rate cfg unlock_time block_height block_time staked_coins cur_height
      type = some Double.zero := by
  unfold get_pos_block_reward_rate
  simp only
  have hdays : (if delta_height > BLOCK_PER_YEAR then BLOCK_PER_YEAR else delta_height)
      / cfg.MONERO_BLOCK_PER_DAY = 0 := by
    apply Nat.div_eq_of_lt
    split <;> omega
  have hday : ¬ cfg.MONERO_BLOCK_PER_DAY = 0 := by omega
  rw [if_neg (by omega), full_stake_coins_eq, hd]
  simp only [if_neg hday, if_pos hdays]
  split
  · rfl
  · split <;> rfl

/-- C17: `get_pos_block_reward_rate` returns exactly `0.0` whenever the lock is expired or
shorter than one day: (a) in height mode (`unlock_time < CRYPTONOTE_MAX_BLOCK_NUMBER`) with
`unlock_time < block_height`; (b) in timestamp mode with `unlock_time < block_time`; (c) when
`delta_height`, which is `unlock_time - block_height` in height mode and
`(unlock_time - block_time) / DIFFICULTY_TARGET_V2` in timestamp mode, is below
`MONERO_BLOCK_PER_DAY`.  The 64-bit subtractions are performed only when they do not underflow:
whenever a `delta_height` is computed, it is the difference in unbounded integers. -/
theorem get_pos_block_reward_rate_lock (cfg : StakeConfig)
    (unlock_time block_height block_time staked_coins cur_height : Nat) (type : network_type)
    (hcoin : 0 < cfg.COIN) (hdt : 0 < cfg.DIFFICULTY_TARGET_V2) (hu : unlock_time < U64) :
    (unlock_time < cfg.CRYPTONOTE_MAX_BLOCK_NUMBER → unlock_time < block_height →
        get_pos_block_reward_rate cfg unlock_time block_height block_time staked_coins
          cur_height type = some Double.zero) ∧
      (cfg.CRYPTONOTE_MAX_BLOCK_NUMBER ≤ unlock_time → unlock_time < block_time →
        get_pos_block_reward_rate cfg unlock_time block_height block_time staked_coins
          cur_height type = some Double.zero) ∧
      (unlock_time < cfg.CRYPTONOTE_MAX_BLOCK_NUMBER → block_height ≤ unlock_time →
        unlock_time - block_height < cfg.MONERO_BLOCK_PER_DAY →
        get_pos_block_reward_rate cfg unlock_time block_height block_time staked_coins
          cur_height type = some Double.zero) ∧
      (cfg.CRYPTONOTE_MAX_BLOCK_NUMBER ≤ unlock_time → block_time ≤ unlock_time →
        (unlock_time - block_time) / cfg.DIFFICULTY_TARGET_V2 < cfg.MONERO_BLOCK_PER_DAY →
        get_pos_block_reward_rate cfg unlock_time block_height block_time staked_coins
          cur_height type = some Double.zero) ∧
      (∀ delta_height,
        lock_delta_height cfg unlock_time block_height block_time = some (some delta_height) →
        (unlock_time < cfg.CRYPTONOTE_MAX_BLOCK_NUMBER ∧ block_height ≤ unlock_time ∧
            delta_height = unlock_time - block_height) ∨
          (cfg.CRYPTONOTE_MAX_BLOCK_NUMBER ≤ unlock_time ∧ block_time ≤ unlock_time ∧
            delta_height = (unlock_time - block_time) / cfg.DIFFICULTY_TARGET_V2)) := by
  refine ⟨?_, ?_, ?_, ?_, ?_⟩
  · intro hmode hexp
    apply get_pos_block_reward_rate_of_break _ _ _ _ _ _ _ hcoin
    unfold lock_delta_height
    rw [if_pos hmode, if_pos hexp]
  · intro hmode hexp
    apply get_pos_block_reward_rate_of_break _ _ _ _ _ _ _ hcoin
    unfold lock_delta_height
    rw [if_neg (by omega), if_pos hexp]
  · intro hmode hle hshort
    apply get_pos_block_reward_rate_of_short _ _ _ _ _ _ (unlock_time - block_height) _ hcoin
      _ hshort
    unfold lock_delta_height
    rw [if_pos hmode, if_neg (by omega), sub64_of_le hle hu]
  · intro hmode hle hshort
    apply get_pos_block_reward_rate_of_short _ _ _ _ _ _
      ((unlock_time - block_time) / cfg.DIFFICULTY_TARGET_V2) _ hcoin _ hshort
    unfold lock_delta_height
    rw [if_neg (by omega), if_neg (by omega), if_neg (by omega), sub64_of_le hle hu]
  · intro delta_height hd
    unfold lock_delta_height at hd
    by_cases hmode : unlock_time < cfg.CRYPTONOTE_MAX_BLOCK_NUMBER
    · rw [if_pos hmode] at hd
      by_cases hexp : unlock_time < block_height
      · rw [if_pos hexp] at hd
        simp at hd
      · rw [if_neg hexp, sub64_of_le (by omega) hu] at hd
        simp only [Option.some.injEq] at hd
        exact Or.inl ⟨hmode, by omega, hd.symm⟩
    · rw [if_neg hmode] at hd
      by_cases hexp : unlock_time < block_time
      · rw [if_pos hexp] at hd
        simp at hd
      · rw [if_neg hexp, if_neg (by omega), sub64_of_le (by omega) hu] at hd
        simp only [Option.some.injEq] at hd
        exact Or.inr ⟨by omega, by omega, hd.symm⟩

theorem get_pos_block_reward_rate_lock_witness :
    (0 < sampleStakeConfig.COIN ∧ 0 < sampleStakeConfig.DIFFICULTY_TARGET_V2 ∧
      2100500 < U64) ∧
    (2100500 < sampleStakeConfig.CRYPTONOTE_MAX_BLOCK_NUMBER → 2100000 ≤ 2100500 →
      2100500 - 2100000 < sampleStakeConfig.MONERO_BLOCK_PER_DAY →
      get_pos_block_reward_rate sampleStakeConfig 2100500 2100000 0 5000000000000000 2100000
        network_type.MAINNET = some Double.zero) :=
  ⟨by decide,
    (get_pos_block_reward_rate_lock sampleStakeConfig 2100500 2100000 0 5000000000000000
      2100000 network_type.MAINNET (by decide) (by decide) (by decide)).2.2.1⟩

/-- C18: for every `cur_height` at or above the activation height, the cap that
`get_pos_block_reward_rate` selects is `FULL_STAKE_COINS_OVER_YEAR[min(i, 12)]` with
`i = (cur_height - start_height) / BLOCK_PER_YEAR` and `BLOCK_PER_YEAR = 259200`; the index is
within the table of 13 entries, the table is strictly ascending, and so the cap does not
decrease when `cur_height` grows, and it is at least 300000 and at most 10000000. -/
theorem full_stake_coins_selected (cfg : StakeConfig) (type : network_type) (cur_height : Nat)
    (hstart : stake_start_height cfg type ≤ cur_height) (hcur : cur_height < U64) :
    ∃ cap, full_stake_coins (stake_start_height cfg type) cur_height = some cap ∧
      FULL_STAKE_COINS_OVER_YEAR[min ((cur_height - stake_start_height cfg type) / 259200) 12]?
        = some cap ∧
      BLOCK_PER_YEAR = 259200 ∧
      min ((cur_height - stake_start_height cfg type) / 259200) 12
        < FULL_STAKE_COINS_OVER_YEAR.length ∧
      FULL_STAKE_COINS_OVER_YEAR.length = 13 ∧
      List.Pairwise (fun a b => a < b) FULL_STAKE_COINS_OVER_YEAR ∧
      300000 ≤ cap ∧ cap ≤ 10000000 ∧
      (∀ later cap2, cur_height ≤ later → later < U64 →
        full_stake_coins (stake_start_height cfg type) later = some cap2 → cap ≤ cap2) := by
  have hsub : ∀ c, stake_start_height cfg type ≤ c → c < U64 →
      sub64 c (stake_start_height cfg type) = c - stake_start_height cfg type :=
    fun c h1 h2 => sub64_of_le h1 h2
  refine ⟨_, full_stake_coins_eq _ _, ?_, rfl, ?_, rfl, by decide,
    (full_stake_cap_bounds _).1, (full_stake_cap_bounds _).2, ?_⟩
  · rw [hsub _ hstart hcur]
    unfold full_stake_cap
    have hlt : min ((cur_height - stake_start_height cfg type) / BLOCK_PER_YEAR) 12
        < FULL_STAKE_COINS_OVER_YEAR.length := by
      show _ < 13
      omega
    rw [List.getD_eq_getElem _ _ hlt]
    exact List.getElem?_eq_getElem hlt
  · show _ < 13
    omega
  · intro later cap2 hle hlater h2
    rw [full_stake_coins_eq] at h2
    simp only [Option.some.injEq] at h2
    rw [← h2, hsub _ hstart hcur, hsub _ (le_trans hstart hle) hlater]
    apply full_stake_cap_mono
    exact Nat.div_le_div_right (by omega)

theorem full_stake_coins_selected_witness :
    (stake_start_height sampleStakeConfig network_type.MAINNET ≤ 2600000 ∧ 2600000 < U64) ∧
    ∃ cap, full_stake_coins (stake_start_height sampleStakeConfig network_type.MAINNET) 2600000
        = some cap ∧
      FULL_STAKE_COINS_OVER_YEAR[min
          ((2600000 - stake_start_height sampleStakeConfig network_type.MAINNET) / 259200) 12]?
        = some cap ∧
      BLOCK_PER_YEAR = 259200 ∧
      min ((2600000 - stake_start_height sampleStakeConfig network_type.MAINNET) / 259200) 12
        < FULL_STAKE_COINS_OVER_YEAR.length ∧
      FULL_STAKE_COINS_OVER_YEAR.length = 13 ∧
      List.Pairwise (fun a b => a < b) FULL_STAKE_COINS_OVER_YEAR ∧
      300000 ≤ cap ∧ cap ≤ 10000000 ∧
      (∀ later cap2, 2600000 ≤ later → later < U64 →
        full_stake_coins (stake_start_height sampleStakeConfig network_type.MAINNET) later
          = some cap2 → cap ≤ cap2) :=
  ⟨by decide,
    full_stake_coins_selected sampleStakeConfig network_type.MAINNET 2600000 (by decide)
      (by decide)⟩

theorem clamp_eq_min (delta_height : Nat) :
    (if delta_height > BLOCK_PER_YEAR then BLOCK_PER_YEAR else delta_height)
      = min delta_height BLOCK_PER_YEAR := by
  split <;> omega

/-- The value of `get_pos_block_reward_rate` on an input that passes every guard. -/
theorem get_pos_block_reward_rate_passed (cfg : StakeConfig)
    (unlock_time block_height block_time staked_coins cur_height delta_height : Nat)
    (type : network_type) (hu : unlock_time < U64)
    (hstake : staked_coins / cfg.COIN ≠ 0)
    (hstart : stake_start_height cfg type ≤ cur_height)
    (hlock :
      (unlock_time < cfg.CRYPTONOTE_MAX_BLOCK_NUMBER ∧ block_height ≤ unlock_time ∧
          delta_height = unlock_time - block_height) ∨
        (cfg.CRYPTONOTE_MAX_BLOCK_NUMBER ≤ unlock_time ∧ block_time ≤ unlock_time ∧
          0 < cfg.DIFFICULTY_TARGET_V2 ∧
          delta_height = (unlock_time - block_time) / cfg.DIFFICULTY_TARGET_V2))
    (hdays : min delta_height BLOCK_PER_YEAR / cfg.MONERO_BLOCK_PER_DAY ≠ 0) :
    get_pos_block_reward_rate cfg unlock_time block_height block_time staked_coins cur_height
        type
      = some (reward_rate_chain (staked_coins / cfg.COIN)
          (full_stake_cap (sub64 cur_height (stake_start_height cfg type) / BLOCK_PER_YEAR))
          (min delta_height BLOCK_PER_YEAR / cfg.MONERO_BLOCK_PER_DAY)) := by
  have hcoin : ¬ cfg.COIN = 0 := by
    intro h
    rw [h, Nat.div_zero] at hstake
    exact hstake rfl
  have hday : ¬ cfg.MONERO_BLOCK_PER_DAY = 0 := by
    intro h
    rw [h, Nat.div_zero] at hdays
    exact hdays rfl
  have hd : lock_delta_height cfg unlock_time block_height block_time
      = some (some delta_height) := by
    unfold lock_delta_height
    rcases hlock with ⟨h1, h2, h3⟩ | ⟨h1, h2, h3, h4⟩
    · rw [if_pos h1, if_neg (by omega), sub64_of_le h2 hu, h3]
    · rw [if_neg (by omega), if_neg (by omega), if_neg (by omega), sub64_of_le h2 hu, h4]
  unfold get_pos_block_reward_rate
  simp only
  rw [if_neg hcoin, if_neg hstake, if_neg (by omega), full_stake_coins_eq, hd]
  simp only [clamp_eq_min, if_neg hday, if_neg hdays]

/-! ## The intermediates of the penalty and the reward over the whole range -/

/-- C15: for every version below `HF_VERSION_60` and every input of the penalty zone with
`M < 2^32 - 1` and `M < w ≤ 2*M`, no intermediate of `get_block_reward` overflows or divides by
zero: the multiplicand is `(2*M - w) * w` and fits in 64 bits, the divisor
`static_cast<uint32_t>(M)` is `M` and is not zero, the 128-bit product is `base * multiplicand`
exactly, and after the two divisions the high word is zero and the low word is below `base`, so
that the two assertions after the divisions hold; compiled with `NDEBUG`, the call returns that
low word. -/
theorem get_block_reward_intermediates (cfg : Config)
    (median_weight current_block_weight already_generated_coins reward version : Nat)
    (hv : version < cfg.HF_VERSION_60) (hs : shift_defined cfg version)
    (hf : 0 < final_subsidy cfg version)
    (hM : effective_median cfg median_weight version < UINT32_MAX)
    (h1 : effective_median cfg median_weight version < current_block_weight)
    (h2 : current_block_weight ≤ 2 * effective_median cfg median_weight version) :
    multiplicand (effective_median cfg median_weight version) current_block_weight
        = (2 * effective_median cfg median_weight version - current_block_weight)
          * current_block_weight ∧
      (2 * effective_median cfg median_weight version - current_block_weight)
          * current_block_weight < U64 ∧
      effective_median cfg median_weight version % 2 ^ 32
        = effective_median cfg median_weight version ∧
      effective_median cfg median_weight version % 2 ^ 32 ≠ 0 ∧
      (mul128 (base cfg already_generated_coins version)
            (multiplicand (effective_median cfg median_weight version)
              current_block_weight)).2 * U64
          + (mul128 (base cfg already_generated_coins version)
            (multiplicand (effective_median cfg median_weight version)
              current_block_weight)).1
        = base cfg already_generated_coins version
          * ((2 * effective_median cfg median_weight version - current_block_weight)
            * current_block_weight) ∧
      ∃ reward_hi reward_lo final_lo,
        div128_32
            (mul128 (base cfg already_generated_coins version)
              (multiplicand (effective_median cfg median_weight version)
                current_block_weight)).2
            (mul128 (base cfg already_generated_coins version)
              (multiplicand (effective_median cfg median_weight version)
                current_block_weight)).1
            (effective_median cfg median_weight version % 2 ^ 32)
          = some (reward_hi, reward_lo) ∧
        div128_32 reward_hi reward_lo (effective_median cfg median_weight version % 2 ^ 32)
          = some (0, final_lo) ∧
        final_lo < base cfg already_generated_coins version ∧
        (∀ ndebug, assert ndebug (decide (0 = 0)) = some () ∧
          assert ndebug (decide (final_lo < base cfg already_generated_coins version))
            = some ()) ∧
        get_block_reward cfg true median_weight current_block_weight already_generated_coins
          reward version = some (true, final_lo) := by
  set M := effective_median cfg median_weight version with hMdef
  set b := base cfg already_generated_coins version with hbdef
  have hb0 : 0 < b := lt_of_lt_of_le hf (final_subsidy_le_base _ _ _)
  have hblt : b < U64 := base_reward_lt _ _ _ _
  have hM32 : M < 4294967295 := hM
  have hmult := multiplicand_eq hM h1 h2
  have hmlt : multiplicand M current_block_weight < U64 := mul64_lt _ _
  have hMmod : M % 2 ^ 32 = M := Nat.mod_eq_of_lt (by omega)
  have hMne : M ≠ 0 := by omega
  have hprod := mul128_exact hblt hmlt
  have hhi : (mul128 b (multiplicand M current_block_weight)).2 < U64 :=
    Nat.mod_lt _ (by decide)
  have hlo : (mul128 b (multiplicand M current_block_weight)).1 < U64 :=
    Nat.mod_lt _ (by decide)
  have hp := penalized_subsidy_lt hb0 h1 h2
  have hpU : penalized_subsidy b M current_block_weight < U64 := lt_trans hp hblt
  refine ⟨hmult, by rw [← hmult]; exact hmlt, hMmod, by rw [hMmod]; exact hMne,
    by rw [hprod, hmult], ?_⟩
  set q := b * ((2 * M - current_block_weight) * current_block_weight) / M with hq
  have hqlt : q / U64 < U64 := by
    have h3 : q ≤ b * ((2 * M - current_block_weight) * current_block_weight) :=
      Nat.div_le_self _ _
    have h4 : b * ((2 * M - current_block_weight) * current_block_weight) < U64 * U64 :=
      Nat.mul_lt_mul_of_lt_of_le hblt (by rw [← hmult]; exact le_of_lt hmlt) (by decide)
    exact Nat.div_lt_of_lt_mul (lt_of_le_of_lt h3 h4)
  have hpq : q / M = penalized_subsidy b M current_block_weight := rfl
  refine ⟨q / U64, q % U64, penalized_subsidy b M current_block_weight, ?_, ?_, hp, ?_, ?_⟩
  · rw [hMmod, div128_32_exact hMne hhi hlo, hprod, hmult]
  · rw [hMmod, div128_32_exact hMne hqlt (Nat.mod_lt _ (by decide)), Nat.div_add_mod' q U64,
      hpq, Nat.div_eq_of_lt hpU, Nat.mod_eq_of_lt hpU]
  · intro ndebug
    unfold assert
    simp [hp]
  · exact get_block_reward_penalty cfg true median_weight current_block_weight
      already_generated_coins reward version hv hs hM h1 h2 (Or.inl rfl)

theorem get_block_reward_intermediates_witness :
    (7 < sampleConfig.HF_VERSION_60 ∧ shift_defined sampleConfig 7 ∧
      0 < final_subsidy sampleConfig 7 ∧ effective_median sampleConfig 0 7 < UINT32_MAX ∧
      effective_median sampleConfig 0 7 < 450000 ∧
      450000 ≤ 2 * effective_median sampleConfig 0 7) ∧
    multiplicand (effective_median sampleConfig 0 7) 450000
      = (2 * effective_median sampleConfig 0 7 - 450000) * 450000 :=
  ⟨by decide,
    (get_block_reward_intermediates sampleConfig 0 450000 3 11 7 (by decide) (by decide)
      (by decide) (by decide) (by decide) (by decide)).1⟩

/-- In the full reward zone `get_block_reward` returns the subsidy. -/
theorem get_block_reward_full (cfg : Config) (ndebug : Bool)
    (median_weight current_block_weight already_generated_coins reward version : Nat)
    (hv : version < cfg.HF_VERSION_60) (hs : shift_defined cfg version)
    (hw : current_block_weight ≤ effective_median cfg median_weight version) :
    get_block_reward cfg ndebug median_weight current_block_weight already_generated_coins
        reward version
      = some (true, base cfg already_generated_coins version) := by
  unfold get_block_reward
  simp only [soft_median_eq]
  rw [if_neg (by omega), if_neg (by unfold shift_defined at hs; omega), if_pos hw]
  rfl

/-- C20, as amended: for every version below `HF_VERSION_60`, fixed coins generated and fixed
median weight with `M < 2^32 - 1`, and all block weights `w1 ≤ w2 ≤ 2*M`, with either the
assertions compiled out or `w2 < 2^32 - 1` and a positive subsidy, the rewards satisfy
`reward(w2) ≤ reward(w1) ≤ base`; and under the same condition on `2*M`, with `M` positive,
`reward(2*M) = 0`. -/
theorem get_block_reward_nonincreasing (cfg : Config) (ndebug : Bool)
    (median_weight w1 w2 already_generated_coins reward version : Nat)
    (hv : version < cfg.HF_VERSION_60) (hs : shift_defined cfg version)
    (hM : effective_median cfg median_weight version < UINT32_MAX)
    (h12 : w1 ≤ w2) (h2 : w2 ≤ 2 * effective_median cfg median_weight version)
    (ha : ndebug = true ∨
      (w2 < UINT32_MAX ∧ 0 < base cfg already_generated_coins version)) :
    (∃ r1 r2,
      get_block_reward cfg ndebug median_weight w1 already_generated_coins reward version
        = some (true, r1) ∧
      get_block_reward cfg ndebug median_weight w2 already_generated_coins reward version
        = some (true, r2) ∧
      r2 ≤ r1 ∧ r1 ≤ base cfg already_generated_coins version) ∧
    (0 < effective_median cfg median_weight version →
      (ndebug = true ∨
        (2 * effective_median cfg median_weight version < UINT32_MAX ∧
          0 < base cfg already_generated_coins version)) →
      get_block_reward cfg ndebug median_weight (2 * effective_median cfg median_weight version)
        already_generated_coins reward version = some (true, 0)) := by
  constructor
  · by_cases hw2 : w2 ≤ effective_median cfg median_weight version
    · exact ⟨_, _, get_block_reward_full cfg ndebug median_weight w1 already_generated_coins
        reward version hv hs (by omega),
        get_block_reward_full cfg ndebug median_weight w2 already_generated_coins reward version
          hv hs hw2, le_refl _, le_refl _⟩
    · have hw2lt : effective_median cfg median_weight version < w2 := Nat.lt_of_not_le hw2
      have e2 := get_block_reward_penalty cfg ndebug median_weight w2 already_generated_coins
        reward version hv hs hM hw2lt h2 ha
      by_cases hw1 : w1 ≤ effective_median cfg median_weight version
      · exact ⟨_, _, get_block_reward_full cfg ndebug median_weight w1 already_generated_coins
          reward version hv hs hw1, e2, penalized_subsidy_le hw2lt h2, le_refl _⟩
      · have hw1lt : effective_median cfg median_weight version < w1 := Nat.lt_of_not_le hw1
        have e1 := get_block_reward_penalty cfg ndebug median_weight w1 already_generated_coins
          reward version hv hs hM hw1lt (by omega) (ha.imp id fun h => ⟨by omega, h.2⟩)
        refine ⟨_, _, e1, e2, ?_, penalized_subsidy_le hw1lt (by omega)⟩
        rcases Nat.eq_or_lt_of_le h12 with heq | hlt
        · rw [heq]
        · exact penalized_subsidy_mono hw1lt hlt h2
  · intro hpos ha2
    rw [get_block_reward_penalty cfg ndebug median_weight _ already_generated_coins reward
      version hv hs hM (by omega) (le_refl _) ha2]
    unfold penalized_subsidy
    rw [Nat.sub_self, Nat.zero_mul, Nat.mul_zero, Nat.zero_div, Nat.zero_div]

theorem get_block_reward_nonincreasing_witness :
    (7 < sampleConfig.HF_VERSION_60 ∧ shift_defined sampleConfig 7 ∧
      effective_median sampleConfig 0 7 < UINT32_MAX ∧ 200000 ≤ 500000 ∧
      500000 ≤ 2 * effective_median sampleConfig 0 7 ∧
      ((false = true) ∨ (500000 < UINT32_MAX ∧ 0 < base sampleConfig 3 7))) ∧
    ∃ r1 r2,
      get_block_reward sampleConfig false 0 200000 3 11 7 = some (true, r1) ∧
      get_block_reward sampleConfig false 0 500000 3 11 7 = some (true, r2) ∧
      r2 ≤ r1 ∧ r1 ≤ base sampleConfig 3 7 :=
  ⟨by decide,
    (get_block_reward_nonincreasing sampleConfig false 0 200000 500000 3 11 7 (by decide)
      (by decide) (by decide) (by decide) (by decide) (by decide)).1⟩

/-- C20 fails as stated.  With the assertions compiled in and the median weight `2^32 - 2`
(version 7), the weight 0 earns the subsidy, but the weights `2^32 - 1` and
`2 * (2^32 - 2)`, both within twice the effective median, stop at
`assert(current_block_weight < UINT32_MAX)`: no reward is returned for them, so neither
`reward(w2) ≤ reward(w1)` nor `reward(2*M) = 0` holds there. -/
theorem get_block_reward_nonincreasing_fails :
    (7 < sampleConfig.HF_VERSION_60 ∧
      effective_median sampleConfig 4294967294 7 < UINT32_MAX ∧
      0 ≤ 4294967295 ∧ 4294967295 ≤ 2 * effective_median sampleConfig 4294967294 7 ∧
      8589934588 = 2 * effective_median sampleConfig 4294967294 7) ∧
    get_block_reward sampleConfig false 4294967294 0 9 11 7
      = some (true, base sampleConfig 9 7) ∧
    get_block_reward sampleConfig false 4294967294 4294967295 9 11 7 = none ∧
    get_block_reward sampleConfig false 4294967294 8589934588 9 11 7 = none := by
  refine ⟨by decide, by decide, by decide, by decide⟩

/-! ## The value of the stake reward rate -/

theorem near_round (n : Nat) : near 1 (round_nearest_even n : ℚ) (n : ℚ) := by
  have h1 : ((9007199254740992 * round_nearest_even n : Nat) : ℚ)
      ≤ ((9007199254740993 * n : Nat) : ℚ) := by exact_mod_cast round_nearest_even_le n
  have h2 : ((9007199254740991 * n : Nat) : ℚ)
      ≤ ((9007199254740992 * round_nearest_even n : Nat) : ℚ) := by
    exact_mod_cast round_nearest_even_ge n
  push_cast at h1 h2
  have hn : (0 : ℚ) ≤ n := Nat.cast_nonneg n
  have hr : (0 : ℚ) ≤ round_nearest_even n := Nat.cast_nonneg _
  unfold near
  norm_num only [pow_one]
  constructor <;> linarith

theorem step_pos (k : Nat) : (0 : ℚ) < (1 + 1 / 2 ^ 52) ^ k := by positivity

theorem near_refl (x : ℚ) : near 0 x x := by
  unfold near
  simp

theorem near_mul {k1 k2 : Nat} {x1 y1 x2 y2 : ℚ} (h1 : near k1 x1 y1) (h2 : near k2 x2 y2)
    (hx1 : 0 ≤ x1) (hy1 : 0 ≤ y1) (hx2 : 0 ≤ x2) (hy2 : 0 ≤ y2) :
    near (k1 + k2) (x1 * x2) (y1 * y2) := by
  unfold near at *
  rw [pow_add]
  constructor
  · calc y1 * y2 ≤ (x1 * (1 + 1 / 2 ^ 52) ^ k1) * (x2 * (1 + 1 / 2 ^ 52) ^ k2) :=
          mul_le_mul h1.1 h2.1 hy2 (le_trans hy1 h1.1)
      _ = x1 * x2 * ((1 + 1 / 2 ^ 52) ^ k1 * (1 + 1 / 2 ^ 52) ^ k2) := by ring
  · calc x1 * x2 ≤ (y1 * (1 + 1 / 2 ^ 52) ^ k1) * (y2 * (1 + 1 / 2 ^ 52) ^ k2) :=
          mul_le_mul h1.2 h2.2 hx2 (le_trans hx1 h1.2)
      _ = y1 * y2 * ((1 + 1 / 2 ^ 52) ^ k1 * (1 + 1 / 2 ^ 52) ^ k2) := by ring

theorem near_inv {k : Nat} {x y : ℚ} (h : near k x y) (hx : 0 < x) (hy : 0 < y) :
    near k x⁻¹ y⁻¹ := by
  unfold near at *
  have hu := step_pos k
  constructor
  · rw [inv_eq_one_div, inv_eq_one_div, div_mul_eq_mul_div, one_mul, div_le_div_iff₀ hy hx]
    linarith [h.2]
  · rw [inv_eq_one_div, inv_eq_one_div, div_mul_eq_mul_div, one_mul, div_le_div_iff₀ hx hy]
    linarith [h.1]

theorem near_div {k1 k2 : Nat} {x1 y1 x2 y2 : ℚ} (h1 : near k1 x1 y1) (h2 : near k2 x2 y2)
    (hx1 : 0 ≤ x1) (hy1 : 0 ≤ y1) (hx2 : 0 < x2) (hy2 : 0 < y2) :
    near (k1 + k2) (x1 / x2) (y1 / y2) := by
  rw [div_eq_mul_inv, div_eq_mul_inv]
  exact near_mul h1 (near_inv h2 hx2 hy2) hx1 hy1 (le_of_lt (inv_pos.mpr hx2))
    (le_of_lt (inv_pos.mpr hy2))

theorem near_trans {k1 k2 : Nat} {x y z : ℚ} (h1 : near k1 x y) (h2 : near k2 y z) :
    near (k1 + k2) x z := by
  unfold near at *
  rw [pow_add]
  have hu1 := step_pos k1
  have hu2 := step_pos k2
  constructor
  · calc z ≤ y * (1 + 1 / 2 ^ 52) ^ k2 := h2.1
      _ ≤ (x * (1 + 1 / 2 ^ 52) ^ k1) * (1 + 1 / 2 ^ 52) ^ k2 :=
          mul_le_mul_of_nonneg_right h1.1 (le_of_lt hu2)
      _ = x * ((1 + 1 / 2 ^ 52) ^ k1 * (1 + 1 / 2 ^ 52) ^ k2) := by ring
  · calc x ≤ y * (1 + 1 / 2 ^ 52) ^ k1 := h1.2
      _ ≤ (z * (1 + 1 / 2 ^ 52) ^ k2) * (1 + 1 / 2 ^ 52) ^ k1 :=
          mul_le_mul_of_nonneg_right h2.2 (le_of_lt hu1)
      _ = z * ((1 + 1 / 2 ^ 52) ^ k1 * (1 + 1 / 2 ^ 52) ^ k2) := by ring

theorem near_scale {k : Nat} {x y : ℚ} (h : near k x y) {c : ℚ} (hc : 0 < c) :
    near k (x / c) (y / c) := by
  unfold near at *
  constructor
  · rw [div_mul_eq_mul_div]
    exact div_le_div_of_nonneg_right h.1 (le_of_lt hc)
  · rw [div_mul_eq_mul_div]
    exact div_le_div_of_nonneg_right h.2 (le_of_lt hc)

theorem toRat_nonneg (a : Double) : 0 ≤ a.toRat := by
  unfold Double.toRat
  positivity

theorem toRat_ofUInt64 (n : Nat) : near 1 (Double.ofUInt64 n).toRat n := by
  unfold Double.toRat Double.ofUInt64
  simp only [pow_zero, div_one]
  exact near_round n

theorem toRat_ofUInt64_small {n : Nat} (h : n < 2 ^ 53) : (Double.ofUInt64 n).toRat = n := by
  unfold Double.toRat Double.ofUInt64
  simp only [pow_zero, div_one, round_nearest_even_of_small h]

theorem toRat_mul (a b : Double) : near 1 (a.mul b).toRat (a.toRat * b.toRat) := by
  unfold Double.toRat Double.mul
  simp only
  have h := near_round (a.mant * b.mant)
  have e : (a.mant : ℚ) / 2 ^ a.scale * ((b.mant : ℚ) / 2 ^ b.scale)
      = ((a.mant * b.mant : Nat) : ℚ) / 2 ^ (a.scale + b.scale) := by
    push_cast
    rw [pow_add]
    field_simp
  rw [e]
  exact near_scale h (by positivity)

/-- The quotient with its sticky bit is within one unit of twice the exact quotient. -/
theorem sticky_quotient (A d : Nat) (hd : 0 < d) (hA : 2 ^ 55 * d ≤ A) :
    near 1 ((2 * (A / d) + (if A % d = 0 then 0 else 1) : Nat) : ℚ) (2 * (A : ℚ) / d) := by
  have hdq : (0 : ℚ) < d := by exact_mod_cast hd
  have hdm := Nat.div_add_mod A d
  have hmod := Nat.mod_lt A hd
  have hq : 2 ^ 55 ≤ A / d := (Nat.le_div_iff_mul_le hd).mpr hA
  have hAq : (A : ℚ) = d * (A / d : Nat) + (A % d : Nat) := by exact_mod_cast hdm.symm
  have hq' : ((2 : ℚ) ^ 55) ≤ (A / d : Nat) := by exact_mod_cast hq
  have hm0 : (0 : ℚ) ≤ (A % d : Nat) := Nat.cast_nonneg _
  have hm1 : ((A % d : Nat) : ℚ) < d := by exact_mod_cast hmod
  unfold near
  rw [pow_one]
  by_cases h0 : A % d = 0
  · rw [if_pos h0]
    rw [h0] at hAq
    push_cast at hAq ⊢
    rw [hAq]
    have e : 2 * ((d : ℚ) * (A / d : Nat) + 0) / d = 2 * (A / d : Nat) := by
      field_simp
      ring
    rw [e]
    norm_num only at hq' ⊢
    constructor <;> linarith
  · rw [if_neg h0]
    have hm2 : (1 : ℚ) ≤ (A % d : Nat) := by
      have : 1 ≤ A % d := Nat.one_le_iff_ne_zero.mpr h0
      exact_mod_cast this
    push_cast
    constructor
    · rw [div_le_iff₀ hdq, hAq]
      norm_num only at hq' ⊢
      nlinarith
    · rw [div_mul_eq_mul_div, le_div_iff₀ hdq, hAq]
      norm_num only at hq' ⊢
      nlinarith

theorem round_nearest_even_pos {n : Nat} (h : 0 < n) : 0 < round_nearest_even n := by
  have := round_nearest_even_ge n
  omega

theorem toRat_pos {a : Double} (h : a.mant ≠ 0) : 0 < a.toRat := by
  unfold Double.toRat
  have : (0 : ℚ) < a.mant := by exact_mod_cast Nat.pos_of_ne_zero h
  positivity

/-- The rounded quotient with sticky bit is within two steps of twice the exact quotient. -/
theorem rounded_quotient (A d : Nat) (hd : 0 < d) (hA : A = 0 ∨ 2 ^ 55 * d ≤ A) :
    near 2 ((round_nearest_even (2 * (A / d) + (if A % d = 0 then 0 else 1)) : Nat) : ℚ)
      (2 * (A : ℚ) / d) := by
  rcases hA with h0 | hA
  · subst h0
    simp only [Nat.zero_div, Nat.zero_mod, if_true, Nat.mul_zero, Nat.add_zero]
    rw [round_nearest_even_of_small (by norm_num)]
    unfold near
    simp
  · exact near_trans (near_round _) (sticky_quotient A d hd hA)

theorem toRat_div (a b : Double) (hb : b.mant ≠ 0) :
    near 2 (a.div b).toRat (a.toRat / b.toRat) := by
  have hd : 0 < b.mant * 2 ^ a.scale := Nat.mul_pos (Nat.pos_of_ne_zero hb) (Nat.two_pow_pos _)
  have hbq : (0 : ℚ) < b.mant := by exact_mod_cast Nat.pos_of_ne_zero hb
  have hA : a.mant * 2 ^ b.scale * 2 ^ (108 + dropped_bits (b.mant * 2 ^ a.scale)) = 0 ∨
      2 ^ 55 * (b.mant * 2 ^ a.scale)
        ≤ a.mant * 2 ^ b.scale * 2 ^ (108 + dropped_bits (b.mant * 2 ^ a.scale)) := by
    rcases Nat.eq_zero_or_pos a.mant with h0 | h0
    · left
      rw [h0, Nat.zero_mul, Nat.zero_mul]
    · right
      have h1 := dropped_bits_upper (b.mant * 2 ^ a.scale)
      rw [Nat.div_lt_iff_lt_mul (Nat.two_pow_pos _)] at h1
      have h2 : 1 ≤ a.mant * 2 ^ b.scale := Nat.mul_pos h0 (Nat.two_pow_pos _)
      calc 2 ^ 55 * (b.mant * 2 ^ a.scale)
          ≤ 2 ^ 55 * (2 ^ 53 * 2 ^ dropped_bits (b.mant * 2 ^ a.scale)) :=
            Nat.mul_le_mul_left _ (le_of_lt h1)
        _ = 1 * 2 ^ (108 + dropped_bits (b.mant * 2 ^ a.scale)) := by
            rw [Nat.pow_add]
            ring
        _ ≤ a.mant * 2 ^ b.scale * 2 ^ (108 + dropped_bits (b.mant * 2 ^ a.scale)) :=
            Nat.mul_le_mul_right _ h2
  have hexact : a.toRat / b.toRat
      = 2 * ((a.mant * 2 ^ b.scale * 2 ^ (108 + dropped_bits (b.mant * 2 ^ a.scale)) : Nat) : ℚ)
        / ((b.mant * 2 ^ a.scale : Nat) : ℚ)
        / 2 ^ (108 + dropped_bits (b.mant * 2 ^ a.scale) + 1) := by
    unfold Double.toRat
    push_cast
    rw [pow_succ]
    field_simp
    ring
  have hdiv : (a.div b).toRat
      = ((round_nearest_even
          (2 * (a.mant * 2 ^ b.scale * 2 ^ (108 + dropped_bits (b.mant * 2 ^ a.scale))
              / (b.mant * 2 ^ a.scale))
            + (if a.mant * 2 ^ b.scale * 2 ^ (108 + dropped_bits (b.mant * 2 ^ a.scale))
                % (b.mant * 2 ^ a.scale) = 0 then 0 else 1)) : Nat) : ℚ)
        / 2 ^ (108 + dropped_bits (b.mant * 2 ^ a.scale) + 1) := rfl
  rw [hexact, hdiv]
  generalize a.mant * 2 ^ b.scale * 2 ^ (108 + dropped_bits (b.mant * 2 ^ a.scale)) = A at *
  exact near_scale (rounded_quotient A (b.mant * 2 ^ a.scale) hd hA) (by positivity)

theorem mul_step {k j : Nat} {a b : Double} {y z : ℚ} (ha : near k a.toRat y)
    (hb : near j b.toRat z) (hy : 0 ≤ y) (hz : 0 ≤ z) :
    near (1 + (k + j)) (a.mul b).toRat (y * z) :=
  near_trans (toRat_mul a b) (near_mul ha hb (toRat_nonneg a) hy (toRat_nonneg b) hz)

theorem div_step {k j : Nat} {a b : Double} {y z : ℚ} (ha : near k a.toRat y)
    (hb : near j b.toRat z) (hy : 0 ≤ y) (hz : 0 < z) (hm : b.mant ≠ 0) :
    near (2 + (k + j)) (a.div b).toRat (y / z) :=
  near_trans (toRat_div a b hm) (near_div ha hb (toRat_nonneg a) hy (toRat_pos hm) hz)

theorem ofUInt64_mant_ne_zero {n : Nat} (h : 0 < n) : (Double.ofUInt64 n).mant ≠ 0 :=
  Nat.pos_iff_ne_zero.mp (round_nearest_even_pos h)

/-- The value of the chain is within 15 relative steps of `2^-52` of the exact rate. -/
theorem reward_rate_chain_near (c cap d : Nat) (hcap : 0 < cap) :
    near 15 (reward_rate_chain c cap d).toRat (((c : ℚ) / cap) * ((d : ℚ) / 360) ^ 2) := by
  have hone : near 0 Double.one.toRat 1 := by
    unfold Double.toRat Double.one near
    simp
  have hc : (0 : ℚ) ≤ c := Nat.cast_nonneg c
  have hcapq : (0 : ℚ) < cap := by exact_mod_cast hcap
  have hd : (0 : ℚ) ≤ d := Nat.cast_nonneg d
  have h360 : (0 : ℚ) < ((FULL_STAKE_TIME_DAYS : Nat) : ℚ) := by
    unfold FULL_STAKE_TIME_DAYS
    norm_num
  have s1 := mul_step hone (toRat_ofUInt64 c) zero_le_one hc
  have s2 := div_step s1 (toRat_ofUInt64 cap) (by positivity) hcapq
    (ofUInt64_mant_ne_zero hcap)
  have s3 := mul_step s2 (toRat_ofUInt64 d) (by positivity) hd
  have s4 := div_step s3 (toRat_ofUInt64 FULL_STAKE_TIME_DAYS) (by positivity) h360
    (ofUInt64_mant_ne_zero (by decide))
  have s5 := mul_step s4 (toRat_ofUInt64 d) (by positivity) hd
  have s6 := div_step s5 (toRat_ofUInt64 FULL_STAKE_TIME_DAYS) (by positivity) h360
    (ofUInt64_mant_ne_zero (by decide))
  have e : ((c : ℚ) / cap) * ((d : ℚ) / 360) ^ 2
      = 1 * (c : ℚ) / cap * d / ((FULL_STAKE_TIME_DAYS : Nat) : ℚ) * d
        / ((FULL_STAKE_TIME_DAYS : Nat) : ℚ) := by
    unfold FULL_STAKE_TIME_DAYS
    push_cast
    field_simp
    ring
  rw [e]
  exact s6

theorem fifteen_steps : ((1 : ℚ) + 1 / 2 ^ 52) ^ 15 ≤ 1 + 1 / 2 ^ 48 := by
  norm_num

/-- The value of the chain differs from the exact rate by less than the fraction `2^-48` of
it. -/
theorem reward_rate_chain_accurate (c cap d : Nat) (hcap : 0 < cap) :
    ((c : ℚ) / cap) * ((d : ℚ) / 360) ^ 2
        ≤ (reward_rate_chain c cap d).toRat * (1 + 1 / 2 ^ 48) ∧
      (reward_rate_chain c cap d).toRat
        ≤ ((c : ℚ) / cap) * ((d : ℚ) / 360) ^ 2 * (1 + 1 / 2 ^ 48) := by
  have h := reward_rate_chain_near c cap d hcap
  unfold near at h
  have hv := toRat_nonneg (reward_rate_chain c cap d)
  have he : (0 : ℚ) ≤ ((c : ℚ) / cap) * ((d : ℚ) / 360) ^ 2 :=
    mul_nonneg (div_nonneg (Nat.cast_nonneg c) (Nat.cast_nonneg cap)) (sq_nonneg _)
  have hs := fifteen_steps
  generalize (reward_rate_chain c cap d).toRat = v at *
  generalize ((c : ℚ) / cap) * ((d : ℚ) / 360) ^ 2 = e at *
  generalize ((1 : ℚ) + 1 / 2 ^ 52) ^ 15 = u at *
  generalize (1 : ℚ) + 1 / 2 ^ 48 = w at *
  constructor
  · exact le_trans h.1 (mul_le_mul_of_nonneg_left hs hv)
  · exact le_trans h.2 (mul_le_mul_of_nonneg_left hs he)

/-- C19: for every input that passes all the guards that return `0.0`,
`get_pos_block_reward_rate` returns `(c / cap) * (d / 360)^2` evaluated as the chain
`1.0 * c / cap * d / 360 * d / 360` from left to right in `double`, where `c` is
`staked_coins / COIN` rounded down, `cap` is the selected entry of the table and `d` is
`min(delta_height, BLOCK_PER_YEAR) / MONERO_BLOCK_PER_DAY` rounded down; `d` never exceeds
`BLOCK_PER_YEAR / MONERO_BLOCK_PER_DAY`.  The value of the chain is within the fraction `2^-48`
of the exact rational `(c / cap) * (d / 360)^2`. -/
theorem get_pos_block_reward_rate_chain (cfg : StakeConfig)
    (unlock_time block_height block_time staked_coins cur_height delta_height : Nat)
    (type : network_type) (hu : unlock_time < U64) (hcur : cur_height < U64)
    (hstake : staked_coins / cfg.COIN ≠ 0)
    (hstart : stake_start_height cfg type ≤ cur_height)
    (hlock :
      (unlock_time < cfg.CRYPTONOTE_MAX_BLOCK_NUMBER ∧ block_height ≤ unlock_time ∧
          delta_height = unlock_time - block_height) ∨
        (cfg.CRYPTONOTE_MAX_BLOCK_NUMBER ≤ unlock_time ∧ block_time ≤ unlock_time ∧
          0 < cfg.DIFFICULTY_TARGET_V2 ∧
          delta_height = (unlock_time - block_time) / cfg.DIFFICULTY_TARGET_V2))
    (hdays : min delta_height BLOCK_PER_YEAR / cfg.MONERO_BLOCK_PER_DAY ≠ 0) :
    ∃ cap rate,
      FULL_STAKE_COINS_OVER_YEAR[min
          ((cur_height - stake_start_height cfg type) / BLOCK_PER_YEAR) 12]? = some cap ∧
      get_pos_block_reward_rate cfg unlock_time block_height block_time staked_coins cur_height
          type = some rate ∧
      rate
        = (((((Double.one.mul (Double.ofUInt64 (staked_coins / cfg.COIN))).div
            (Double.ofUInt64 cap)).mul
            (Double.ofUInt64 (min delta_height BLOCK_PER_YEAR / cfg.MONERO_BLOCK_PER_DAY))).div
            (Double.ofUInt64 360)).mul
            (Double.ofUInt64 (min delta_height BLOCK_PER_YEAR / cfg.MONERO_BLOCK_PER_DAY))).div
            (Double.ofUInt64 360) ∧
      min delta_height BLOCK_PER_YEAR / cfg.MONERO_BLOCK_PER_DAY
        ≤ BLOCK_PER_YEAR / cfg.MONERO_BLOCK_PER_DAY ∧
      ((staked_coins / cfg.COIN : Nat) : ℚ) / cap
          * (((min delta_height BLOCK_PER_YEAR / cfg.MONERO_BLOCK_PER_DAY : Nat) : ℚ) / 360) ^ 2
        ≤ rate.toRat * (1 + 1 / 2 ^ 48) ∧
      rate.toRat
        ≤ ((staked_coins / cfg.COIN : Nat) : ℚ) / cap
          * (((min delta_height BLOCK_PER_YEAR / cfg.MONERO_BLOCK_PER_DAY : Nat) : ℚ) / 360) ^ 2
          * (1 + 1 / 2 ^ 48) := by
  have hcap := (full_stake_cap_bounds
    ((cur_height - stake_start_height cfg type) / BLOCK_PER_YEAR)).1
  have hacc := reward_rate_chain_accurate (staked_coins / cfg.COIN)
    (full_stake_cap ((cur_height - stake_start_height cfg type) / BLOCK_PER_YEAR))
    (min delta_height BLOCK_PER_YEAR / cfg.MONERO_BLOCK_PER_DAY) (by omega)
  refine ⟨full_stake_cap ((cur_height - stake_start_height cfg type) / BLOCK_PER_YEAR),
    reward_rate_chain (staked_coins / cfg.COIN)
      (full_stake_cap ((cur_height - stake_start_height cfg type) / BLOCK_PER_YEAR))
      (min delta_height BLOCK_PER_YEAR / cfg.MONERO_BLOCK_PER_DAY),
    ?_, ?_, rfl, Nat.div_le_div_right (Nat.min_le_right _ _), hacc.1, hacc.2⟩
  · unfold full_stake_cap
    have hlt : min ((cur_height - stake_start_height cfg type) / BLOCK_PER_YEAR) 12
        < FULL_STAKE_COINS_OVER_YEAR.length := by
      show _ < 13
      omega
    rw [List.getD_eq_getElem _ _ hlt]
    exact List.getElem?_eq_getElem hlt
  · rw [get_pos_block_reward_rate_passed cfg unlock_time block_height block_time staked_coins
      cur_height delta_height type hu hstake hstart hlock hdays, sub64_of_le hstart hcur]

theorem get_pos_block_reward_rate_chain_witness :
    (2300000 < U64 ∧ 2100000 < U64 ∧ 5000000000000000 / sampleStakeConfig.COIN ≠ 0 ∧
      stake_start_height sampleStakeConfig network_type.MAINNET ≤ 2100000 ∧
      ((2300000 < sampleStakeConfig.CRYPTONOTE_MAX_BLOCK_NUMBER ∧ 2100000 ≤ 2300000 ∧
          200000 = 2300000 - 2100000) ∨
        (sampleStakeConfig.CRYPTONOTE_MAX_BLOCK_NUMBER ≤ 2300000 ∧ 0 ≤ 2300000 ∧
          0 < sampleStakeConfig.DIFFICULTY_TARGET_V2 ∧
          200000 = (2300000 - 0) / sampleStakeConfig.DIFFICULTY_TARGET_V2)) ∧
      min 200000 BLOCK_PER_YEAR / sampleStakeConfig.MONERO_BLOCK_PER_DAY ≠ 0) ∧
    ∃ cap rate,
      FULL_STAKE_COINS_OVER_YEAR[min
          ((2100000 - stake_start_height sampleStakeConfig network_type.MAINNET)
            / BLOCK_PER_YEAR) 12]? = some cap ∧
      get_pos_block_reward_rate sampleStakeConfig 2300000 2100000 0 5000000000000000 2100000
          network_type.MAINNET = some rate ∧
      rate
        = (((((Double.one.mul
            (Double.ofUInt64 (5000000000000000 / sampleStakeConfig.COIN))).div
            (Double.ofUInt64 cap)).mul
            (Double.ofUInt64
              (min 200000 BLOCK_PER_YEAR / sampleStakeConfig.MONERO_BLOCK_PER_DAY))).div
            (Double.ofUInt64 360)).mul
            (Double.ofUInt64
              (min 200000 BLOCK_PER_YEAR / sampleStakeConfig.MONERO_BLOCK_PER_DAY))).div
            (Double.ofUInt64 360) ∧
      min 200000 BLOCK_PER_YEAR / sampleStakeConfig.MONERO_BLOCK_PER_DAY
        ≤ BLOCK_PER_YEAR / sampleStakeConfig.MONERO_BLOCK_PER_DAY ∧
      ((5000000000000000 / sampleStakeConfig.COIN : Nat) : ℚ) / cap
          * (((min 200000 BLOCK_PER_YEAR / sampleStakeConfig.MONERO_BLOCK_PER_DAY : Nat) : ℚ)
            / 360) ^ 2
        ≤ rate.toRat * (1 + 1 / 2 ^ 48) ∧
      rate.toRat
        ≤ ((5000000000000000 / sampleStakeConfig.COIN : Nat) : ℚ) / cap
          * (((min 200000 BLOCK_PER_YEAR / sampleStakeConfig.MONERO_BLOCK_PER_DAY : Nat) : ℚ)
            / 360) ^ 2
          * (1 + 1 / 2 ^ 48) :=
  ⟨by decide,
    get_pos_block_reward_rate_chain sampleStakeConfig 2300000 2100000 0 5000000000000000
      2100000 200000 network_type.MAINNET (by decide) (by decide) (by decide) (by decide)
      (by decide) (by decide)⟩

/-! ## The reward and the coins generated, the oversize test, the activation height -/

theorem base_antitone (cfg : Config) (version : Nat) {agc1 agc2 : Nat}
    (hsupply : cfg.MONEY_SUPPLY < U64) (h12 : agc1 ≤ agc2) (h2 : agc2 ≤ cfg.MONEY_SUPPLY) :
    base cfg agc2 version ≤ base cfg agc1 version := by
  unfold base
  rw [base_reward_eq_max, base_reward_eq_max, sub64_of_le h2 hsupply,
    sub64_of_le (le_trans h12 h2) hsupply, Nat.shiftRight_eq_div_pow, Nat.shiftRight_eq_div_pow]
  exact max_le_max (Nat.div_le_div_right (by omega)) (le_refl _)

theorem penalized_subsidy_mono_base {b1 b2 : Nat} (M w : Nat) (h : b2 ≤ b1) :
    penalized_subsidy b2 M w ≤ penalized_subsidy b1 M w := by
  unfold penalized_subsidy
  exact Nat.div_le_div_right (Nat.div_le_div_right (Nat.mul_le_mul_right _ h))

/-- C21, as amended: for every version below `HF_VERSION_60` and fixed accepted weights
(`w ≤ 2*M`, `M < 2^32 - 1`), with either the assertions compiled out or `w < 2^32 - 1` and a
non-zero final subsidy, the reward returned by `get_block_reward` does not increase when
`already_generated_coins` grows within `0 .. MONEY_SUPPLY`, and in the full reward zone it is
never below `FINAL_SUBSIDY_PER_MINUTE * target_minutes`. -/
theorem get_block_reward_antitone_coins (cfg : Config) (ndebug : Bool)
    (median_weight current_block_weight agc1 agc2 reward version : Nat)
    (hv : version < cfg.HF_VERSION_60) (hs : shift_defined cfg version)
    (hsupply : cfg.MONEY_SUPPLY < U64) (h12 : agc1 ≤ agc2) (hagc : agc2 ≤ cfg.MONEY_SUPPLY)
    (hM : effective_median cfg median_weight version < UINT32_MAX)
    (hw : current_block_weight ≤ 2 * effective_median cfg median_weight version)
    (ha : ndebug = true ∨
      (current_block_weight < UINT32_MAX ∧ 0 < final_subsidy cfg version)) :
    ∃ r1 r2,
      get_block_reward cfg ndebug median_weight current_block_weight agc1 reward version
        = some (true, r1) ∧
      get_block_reward cfg ndebug median_weight current_block_weight agc2 reward version
        = some (true, r2) ∧
      r2 ≤ r1 ∧
      (current_block_weight ≤ effective_median cfg median_weight version →
        mul64 cfg.FINAL_SUBSIDY_PER_MINUTE
            ((if version < 2 then cfg.DIFFICULTY_TARGET_V1 else cfg.DIFFICULTY_TARGET_V2) / 60)
          ≤ r2 ∧
        (cfg.FINAL_SUBSIDY_PER_MINUTE
            * ((if version < 2 then cfg.DIFFICULTY_TARGET_V1 else cfg.DIFFICULTY_TARGET_V2)
              / 60) < U64 →
          cfg.FINAL_SUBSIDY_PER_MINUTE
              * ((if version < 2 then cfg.DIFFICULTY_TARGET_V1 else cfg.DIFFICULTY_TARGET_V2)
                / 60)
            ≤ r2)) := by
  have hb := base_antitone cfg version hsupply h12 hagc
  by_cases hfull : current_block_weight ≤ effective_median cfg median_weight version
  · refine ⟨_, _, get_block_reward_full cfg ndebug median_weight current_block_weight agc1
      reward version hv hs hfull,
      get_block_reward_full cfg ndebug median_weight current_block_weight agc2 reward version
        hv hs hfull, hb, fun _ => ⟨final_subsidy_le_base cfg agc2 version, fun hlt => ?_⟩⟩
    have h := final_subsidy_le_base cfg agc2 version
    unfold final_subsidy target_minutes target at h
    rw [mul64_of_lt hlt] at h
    exact h
  · have hlt : effective_median cfg median_weight version < current_block_weight :=
      Nat.lt_of_not_le hfull
    have ha1 : ndebug = true ∨ (current_block_weight < UINT32_MAX ∧ 0 < base cfg agc1 version) :=
      ha.imp id fun h => ⟨h.1, lt_of_lt_of_le h.2 (final_subsidy_le_base _ _ _)⟩
    have ha2 : ndebug = true ∨ (current_block_weight < UINT32_MAX ∧ 0 < base cfg agc2 version) :=
      ha.imp id fun h => ⟨h.1, lt_of_lt_of_le h.2 (final_subsidy_le_base _ _ _)⟩
    exact ⟨_, _, get_block_reward_penalty cfg ndebug median_weight current_block_weight agc1
      reward version hv hs hM hlt hw ha1,
      get_block_reward_penalty cfg ndebug median_weight current_block_weight agc2 reward
        version hv hs hM hlt hw ha2,
      penalized_subsidy_mono_base _ _ hb, fun h => absurd h hfull⟩

theorem get_block_reward_antitone_coins_witness :
    (7 < sampleConfig.HF_VERSION_60 ∧ shift_defined sampleConfig 7 ∧
      sampleConfig.MONEY_SUPPLY < U64 ∧ 1000 ≤ 9000000000000000000 ∧
      9000000000000000000 ≤ sampleConfig.MONEY_SUPPLY ∧
      effective_median sampleConfig 0 7 < UINT32_MAX ∧
      450000 ≤ 2 * effective_median sampleConfig 0 7 ∧
      ((false = true) ∨ (450000 < UINT32_MAX ∧ 0 < final_subsidy sampleConfig 7))) ∧
    ∃ r1 r2,
      get_block_reward sampleConfig false 0 450000 1000 11 7 = some (true, r1) ∧
      get_block_reward sampleConfig false 0 450000 9000000000000000000 11 7
        = some (true, r2) ∧
      r2 ≤ r1 ∧
      (450000 ≤ effective_median sampleConfig 0 7 →
        mul64 sampleConfig.FINAL_SUBSIDY_PER_MINUTE
            ((if 7 < 2 then sampleConfig.DIFFICULTY_TARGET_V1
              else sampleConfig.DIFFICULTY_TARGET_V2) / 60)
          ≤ r2 ∧
        (sampleConfig.FINAL_SUBSIDY_PER_MINUTE
            * ((if 7 < 2 then sampleConfig.DIFFICULTY_TARGET_V1
              else sampleConfig.DIFFICULTY_TARGET_V2) / 60) < U64 →
          sampleConfig.FINAL_SUBSIDY_PER_MINUTE
              * ((if 7 < 2 then sampleConfig.DIFFICULTY_TARGET_V1
                else sampleConfig.DIFFICULTY_TARGET_V2) / 60)
            ≤ r2)) :=
  ⟨by decide,
    get_block_reward_antitone_coins sampleConfig false 0 450000 1000 9000000000000000000 11 7
      (by decide) (by decide) (by decide) (by decide) (by decide) (by decide) (by decide)
      (by decide)⟩

/-- C21 fails as stated.  With the assertions compiled in, the median weight `2^32 - 2` and
the accepted block weight `2^32 + 5` (version 7), the call stops at
`assert(current_block_weight < UINT32_MAX)` for the coins generated 1000 as for 2000: there is
no reward to compare. -/
theorem get_block_reward_antitone_coins_fails :
    (7 < sampleConfig.HF_VERSION_60 ∧
      effective_median sampleConfig 4294967294 7 < UINT32_MAX ∧
      4294967301 ≤ 2 * effective_median sampleConfig 4294967294 7 ∧
      1000 ≤ 2000 ∧ 2000 ≤ sampleConfig.MONEY_SUPPLY) ∧
    get_block_reward sampleConfig false 4294967294 4294967301 1000 11 7 = none ∧
    get_block_reward sampleConfig false 4294967294 4294967301 2000 11 7 = none := by
  refine ⟨by decide, by decide, by decide⟩

/-- C22, as amended: for every version below `HF_VERSION_60` and every median weight and
block weight with `M = max(median_weight, get_min_block_weight(version)) < 2^63`,
`get_block_reward` returns `false` only if `current_block_weight > 2 * M` in unbounded
integers (and then `reward` is left as it was): below `2^63` the 64-bit product
`2 * median_weight` does not wrap. -/
theorem get_block_reward_rejects_only_oversized (cfg : Config) (ndebug : Bool)
    (median_weight current_block_weight already_generated_coins reward version r : Nat)
    (hv : version < cfg.HF_VERSION_60)
    (hM : effective_median cfg median_weight version < 2 ^ 63)
    (hrej : get_block_reward cfg ndebug median_weight current_block_weight
      already_generated_coins reward version = some (false, r)) :
    2 * effective_median cfg median_weight version < current_block_weight ∧ r = reward := by
  have h2M : mul64 2 (effective_median cfg median_weight version)
      = 2 * effective_median cfg median_weight version :=
    mul64_of_lt (by rw [U64_eq]; norm_num only at hM; omega)
  unfold get_block_reward at hrej
  simp only [soft_median_eq, h2M] at hrej
  rw [if_neg (by omega)] at hrej
  split at hrej
  · exact absurd hrej (by simp)
  · split at hrej
    · exact absurd hrej (by simp)
    · split at hrej
      · rename_i hgt
        simp only [Option.some.injEq, Prod.mk.injEq, true_and] at hrej
        exact ⟨hgt, hrej.symm⟩
      · exfalso
        simp [Option.bind_eq_some] at hrej

theorem get_block_reward_rejects_only_oversized_witness :
    (7 < sampleConfig.HF_VERSION_60 ∧ effective_median sampleConfig 0 7 < 2 ^ 63 ∧
      get_block_reward sampleConfig false 0 600001 5 11 7 = some (false, 11)) ∧
    (2 * effective_median sampleConfig 0 7 < 600001 ∧ 11 = 11) :=
  ⟨by decide,
    get_block_reward_rejects_only_oversized sampleConfig false 0 600001 5 11 7 11 (by decide)
      (by decide) (by decide)⟩

/-- C22 fails as stated.  For the median weight `2^63` and the block weight `2^63 + 1`
(version 7) the 64-bit product `2 * median_weight` wraps to 0, and `get_block_reward` returns
`false`, although the block weight is below twice the effective median `2^64`. -/
theorem get_block_reward_rejects_only_oversized_fails :
    (7 < sampleConfig.HF_VERSION_60 ∧ 9223372036854775808 < U64 ∧
      9223372036854775809 < U64 ∧
      9223372036854775809 ≤ 2 * effective_median sampleConfig 9223372036854775808 7) ∧
    mul64 2 (effective_median sampleConfig 9223372036854775808 7) = 0 ∧
    ∀ ndebug,
      get_block_reward sampleConfig ndebug 9223372036854775808 9223372036854775809 5 11 7
        = some (false, 11) := by
  refine ⟨by decide, by decide, ?_⟩
  intro ndebug
  cases ndebug <;> decide

/-- C23, at its failing input: MAINNET, STAGENET and TESTNET enable the funding exactly from
the height that `get_funding_enabled_height` reports, but for FAKECHAIN
`get_funding_enabled_height` reports 0 while `funding_enabled` enforces 10, so that at the
heights 0 to 9 the funding is not enabled although the height is at or above the reported
one. -/
theorem get_funding_enabled_height_fakechain :
    (∀ h, funding_enabled network_type.MAINNET h = true ↔
        get_funding_enabled_height network_type.MAINNET ≤ h) ∧
      (∀ h, funding_enabled network_type.STAGENET h = true ↔
        get_funding_enabled_height network_type.STAGENET ≤ h) ∧
      (∀ h, funding_enabled network_type.TESTNET h = true ↔
        get_funding_enabled_height network_type.TESTNET ≤ h) ∧
      get_funding_enabled_height network_type.FAKECHAIN = 0 ∧
      funding_enabled network_type.FAKECHAIN 5 = false ∧
      get_funding_enabled_height network_type.FAKECHAIN ≤ 5 ∧
      (∀ h, funding_enabled network_type.FAKECHAIN h = true ↔ 10 ≤ h) ∧
      ¬ (∀ h, funding_enabled network_type.FAKECHAIN h = true ↔
        get_funding_enabled_height network_type.FAKECHAIN ≤ h) := by
  refine ⟨?_, ?_, ?_, rfl, rfl, by decide, ?_, ?_⟩
  · intro h
    simp [funding_enabled, get_funding_enabled_height, MONERO_ENABLE_FUNDING_HEIGHT_MAINNET]
  · intro h
    simp [funding_enabled, get_funding_enabled_height, MONERO_ENABLE_FUNDING_HEIGHT_STAGENET]
  · intro h
    simp [funding_enabled, get_funding_enabled_height, MONERO_ENABLE_FUNDING_HEIGHT_TESTNET]
  · intro h
    simp [funding_enabled, MONERO_ENABLE_FUNDING_HEIGHT_REGTESTNET]
  · intro hall
    have h5 := (hall 5).mpr (by decide)
    exact absurd h5 (by decide)

end cryptonote
